import Mathlib

/-!
# gologger: a shallow embedding of `gologger.go`

The logger is a producer/consumer pipeline: `newMessage` (reached through
`Fatal`, `Error`, `Warning`, `Info`, `Debug`) sends on the buffered channel
`l.messages`; the goroutine `logWriter` receives from it, appends a line to the
log file and mirrors it with `log.Println`; `Stop` closes `l.messages` and
sends on the unbuffered channel `l.stopchan`.

The embedding is an interleaving semantics.  One record, `Logger`, holds the
fields of the Go struct together with the objects they point to (the two
channels, the file, the standard logger's output) and the control point of the
`logWriter` goroutine.  Every call of the API is a function from the state to
an `Outcome` (the call returned, parked on a channel, or panicked); the
goroutine is a step function driven by a `Choice` that carries what the
scheduler and the operating system decide (which `select` case fires, whether
an I/O call fails).
-/

namespace Gologger

/-! ## Data model -/

/-- Go `type LogLevel int`. -/
abbrev LogLevel := Int

def LogLevelFatal : LogLevel := 1
def LogLevelError : LogLevel := 2
def LogLevelWarning : LogLevel := 3
def LogLevelInfo : LogLevel := 4
def LogLevelDebug : LogLevel := 5

/-- Go `type message struct`. -/
structure message where
  datetime : String
  level : String
  pkg : String
  fnc : String
  data : String
deriving DecidableEq, Repr

/-- Go zero value of `message`: what a receive on a closed, drained channel yields. -/
def message.zero : message :=
  { datetime := "", level := "", pkg := "", fnc := "", data := "" }

/-- The fields of a `time.Time` that the program reads (`Month()` is printed with `%d`). -/
structure Time where
  Day : Int
  Month : Int
  Year : Int
  Hour : Int
  Minute : Int
  Second : Int
deriving DecidableEq, Repr

/-- A non-nil value of the Go interface `error`; a nil one is `none : Option error`. -/
structure error where
  Error : String
deriving DecidableEq, Repr

/-- Control point of the goroutine `logWriter`. -/
inductive Writer where
  /-- spawned by `NewLogger`, `os.Create` not yet returned -/
  | starting
  /-- parked at the `select` of the loop -/
  | selecting
  /-- after `writeFile` returned nil for `msgstring`, `writeConsole` not yet called -/
  | mirroring (msgstring : String)
  /-- returned -/
  | exited
deriving DecidableEq, Repr

/-- Progress of a call of `Stop` that got past `close(l.messages)`. -/
inductive Stopper where
  /-- no such call -/
  | idle
  /-- parked at the send on `l.stopchan` -/
  | sending
  /-- the send was received by `logWriter`: `Stop` returned -/
  | returned
  /-- the channel `l.stopchan` was closed under the parked send -/
  | panicked
deriving DecidableEq, Repr

/-- One call of `log.Println` on the standard logger. -/
inductive LogRecord where
  /-- the call `log.Println(err)` in `logWriter` -/
  | failure (err : String)
  /-- the call `log.Println(msgstring)` in `writeConsole` -/
  | line (msgstring : String)
deriving DecidableEq, Repr

/-- Capacity of `l.messages`: `make(chan message, 256)`. -/
def messagesCap : Nat := 256

/-- The struct `Logger` with the objects it owns.

* `queue`, `sendq`, `closed` are the channel `l.messages`: its buffer, the
  values of the goroutines parked in a send on it (oldest first), and whether
  it was closed;
* `stopper`, `stopClosed` are the unbuffered channel `l.stopchan`;
* `writer` is the goroutine started by `NewLogger`;
* `file` is the contents of the log file, one entry per successful
  `WriteString`; `fileOpen` tells whether the handle is open;
* `stdlog` is what was handed to `log.Println`;
* `history` is a ghost field, not program state: every message that entered
  the buffer of `l.messages`, in the order of entry;
* `sendPanics` is a ghost field as well: the messages of the calls that were
  parked in a send on `l.messages` when it was closed; each of these calls
  panicked (send on closed channel) and its message never entered the buffer. -/
structure Logger where
  logfile : String
  loglevel : LogLevel
  queue : List message
  sendq : List message
  closed : Bool
  stopper : Stopper
  stopClosed : Bool
  writer : Writer
  file : List String
  fileOpen : Bool
  stdlog : List LogRecord
  history : List message
  sendPanics : List message
deriving DecidableEq, Repr

/-- How a call ends: it returned, it is parked on a channel operation, or it
panicked.  Each carries the state the call leaves behind. -/
inductive Outcome where
  | returned (l : Logger)
  | blocked (l : Logger)
  | panicked (l : Logger)
deriving DecidableEq, Repr

/-- State left behind by a call. -/
def Outcome.state : Outcome → Logger
  | Outcome.returned l => l
  | Outcome.blocked l => l
  | Outcome.panicked l => l

/-! ## Construction -/

/-- The `fmt.Sprintf` of `NewLogger`: `%d.%d.%d_%d:%d.log`. -/
def filename (datetime : Time) : String :=
  toString datetime.Day ++ "." ++ toString datetime.Month ++ "." ++ toString datetime.Year
    ++ "_" ++ toString datetime.Hour ++ ":" ++ toString datetime.Minute ++ ".log"

/-- Go `NewLogger(path, level)`.  `Join` stands for `filepath.Join` of the standard
library and `datetime` for the value of `time.Now()`. -/
def NewLogger (Join : String → String → String) (path : String) (level : LogLevel)
    (datetime : Time) : Logger :=
  { logfile := Join path (filename datetime)
    loglevel := level
    queue := []
    sendq := []
    closed := false
    stopper := Stopper.idle
    stopClosed := false
    writer := Writer.starting
    file := []
    fileOpen := false
    stdlog := []
    history := []
    sendPanics := [] }

/-! ## Producers -/

/-- The channel send `l.messages <- msg`: panics on a closed channel, appends to
the buffer when it has a free slot, parks the sender otherwise. -/
def send (l : Logger) (msg : message) : Outcome :=
  if l.closed then Outcome.panicked l
  else if l.queue.length < messagesCap then
    Outcome.returned { l with queue := l.queue ++ [msg], history := l.history ++ [msg] }
  else Outcome.blocked { l with sendq := l.sendq ++ [msg] }

/-- The `switch level` of `newMessage`. -/
def levelstr (level : LogLevel) : String :=
  if level = LogLevelFatal then "FATAL"
  else if level = LogLevelError then "ERROR"
  else if level = LogLevelWarning then "WARNING"
  else if level = LogLevelInfo then "INFO"
  else if level = LogLevelDebug then "DEBUG"
  else "CUSTOM"

/-- The `fmt.Sprintf` of `newMessage`: `%d.%d.%d | %d:%d:%d`. -/
def msgtime (datetime : Time) : String :=
  toString datetime.Day ++ "." ++ toString datetime.Month ++ "." ++ toString datetime.Year
    ++ " | " ++ toString datetime.Hour ++ ":" ++ toString datetime.Minute ++ ":"
    ++ toString datetime.Second

/-- Go `l.newMessage(level, pkg, fnc, data)`; `datetime` is the value of `time.Now()`. -/
def newMessage (l : Logger) (level : LogLevel) (pkg fnc data : String) (datetime : Time) :
    Outcome :=
  if level > l.loglevel then Outcome.returned l
  else
    send l
      { datetime := msgtime datetime
        level := levelstr level
        pkg := pkg
        fnc := fnc
        data := data }

/-- Go `l.Fatal(pkg, fnc, err)`: `err.Error()` is evaluated first and panics on nil. -/
def Fatal (l : Logger) (pkg fnc : String) (err : Option error) (now : Time) : Outcome :=
  match err with
  | none => Outcome.panicked l
  | some e => newMessage l LogLevelFatal pkg fnc e.Error now

/-- Go `l.Error(pkg, fnc, err)`. -/
def Error (l : Logger) (pkg fnc : String) (err : Option error) (now : Time) : Outcome :=
  match err with
  | none => Outcome.panicked l
  | some e => newMessage l LogLevelError pkg fnc e.Error now

/-- Go `l.Warning(pkg, fnc, data)`. -/
def Warning (l : Logger) (pkg fnc data : String) (now : Time) : Outcome :=
  newMessage l LogLevelWarning pkg fnc data now

/-- Go `l.Info(pkg, fnc, data)`. -/
def Info (l : Logger) (pkg fnc data : String) (now : Time) : Outcome :=
  newMessage l LogLevelInfo pkg fnc data now

/-- Go `l.Debug(pkg, fnc, data)`. -/
def Debug (l : Logger) (pkg fnc data : String) (now : Time) : Outcome :=
  newMessage l LogLevelDebug pkg fnc data now

/-! ## Shutdown -/

/-- Go `l.Stop()`.  `close(l.messages)` panics on a closed channel and makes the
senders parked on it panic; the send on `l.stopchan` panics if that channel is
closed and otherwise parks until `logWriter` receives it. -/
def Stop (l : Logger) : Outcome :=
  if l.closed then Outcome.panicked l
  else if l.stopClosed then
    Outcome.panicked
      { l with closed := true, sendq := [], sendPanics := l.sendPanics ++ l.sendq }
  else
    Outcome.blocked
      { l with
        closed := true
        sendq := []
        sendPanics := l.sendPanics ++ l.sendq
        stopper := Stopper.sending }

/-! ## The consumer goroutine -/

/-- What the scheduler and the operating system decide for the next step of
`logWriter`. -/
inductive Choice where
  /-- the call `os.Create` returns; `some e` is a non-nil error -/
  | create (err : Option String)
  /-- the `select` takes `msg := <-l.messages`; `err` is what `WriteString` returns -/
  | recvMsg (err : Option String)
  /-- the `select` takes `<-l.stopchan` -/
  | recvStop
  /-- the call `writeConsole` runs -/
  | console
deriving DecidableEq, Repr

/-- The channel receive `<-l.messages`, when it can proceed: the head of the
buffer (the oldest parked sender then moves its value to the tail and resumes),
or the zero value once the channel is closed and drained. -/
def recv (l : Logger) : Option (message × Logger) :=
  match l.queue with
  | m :: rest =>
    match l.sendq with
    | [] => some (m, { l with queue := rest })
    | s :: ss =>
      some (m, { l with queue := rest ++ [s], sendq := ss, history := l.history ++ [s] })
  | [] => if l.closed then some (message.zero, l) else none

/-- Go `l.writeFile(*logfile, msgstring)`: `err` is what `WriteString` returns. -/
def writeFile (l : Logger) (msgstring : String) (err : Option String) :
    Logger × Option String :=
  match err with
  | some e => (l, some e)
  | none => ({ l with file := l.file ++ [msgstring ++ "\n"] }, none)

/-- Go `l.writeConsole(msgstring)`. -/
def writeConsole (l : Logger) (msgstring : String) : Logger :=
  { l with stdlog := l.stdlog ++ [LogRecord.line msgstring] }

/-- The deferred function of `logWriter`: `logfile.Close()`, `close(l.stopchan)`
(a `Stop` parked on that channel then panics), and the goroutine ends. -/
def deferred (l : Logger) : Logger :=
  { l with
    fileOpen := false
    stopClosed := true
    stopper := if l.stopper = Stopper.sending then Stopper.panicked else l.stopper
    writer := Writer.exited }

/-- The `fmt.Sprintf` of `logWriter`: `%s | %s | %s`. -/
def msgstring (msg : message) : String :=
  msg.datetime ++ " | " ++ msg.level ++ " | " ++ msg.data

/-- One step of `l.logWriter()`; `none` when the choice is not enabled. -/
def logWriter (l : Logger) (c : Choice) : Option Logger :=
  match l.writer, c with
  | Writer.starting, Choice.create none =>
    some { l with file := [], fileOpen := true, writer := Writer.selecting }
  | Writer.starting, Choice.create (some e) =>
    some { l with stdlog := l.stdlog ++ [LogRecord.failure e], writer := Writer.exited }
  | Writer.selecting, Choice.recvMsg r =>
    match recv l with
    | none => none
    | some (msg, l1) =>
      match writeFile l1 (msgstring msg) r with
      | (l2, some e) => some (deferred { l2 with stdlog := l2.stdlog ++ [LogRecord.failure e] })
      | (l2, none) => some { l2 with writer := Writer.mirroring (msgstring msg) }
  | Writer.mirroring s, Choice.console =>
    some (writeConsole { l with writer := Writer.selecting } s)
  | Writer.selecting, Choice.recvStop =>
    if l.stopper = Stopper.sending then some (deferred { l with stopper := Stopper.returned })
    else none
  | _, _ => none

/-! ## Runs -/

/-- One step of a run: a call made by some producer goroutine, or a step of `logWriter`. -/
inductive Event where
  | newMessage (level : LogLevel) (pkg fnc data : String) (now : Time)
  | Fatal (pkg fnc : String) (err : Option error) (now : Time)
  | Error (pkg fnc : String) (err : Option error) (now : Time)
  | Warning (pkg fnc data : String) (now : Time)
  | Info (pkg fnc data : String) (now : Time)
  | Debug (pkg fnc data : String) (now : Time)
  | Stop
  | writer (c : Choice)
deriving DecidableEq, Repr

/-- State after one event.  A producer that parks or panics leaves the state its
call reached (a panic is taken as recovered by the caller; the run of a
process that dies of it is the run up to that event); a step of `logWriter`
that is not enabled leaves the state as it is. -/
def step (l : Logger) : Event → Logger
  | Event.newMessage level pkg fnc data now => (newMessage l level pkg fnc data now).state
  | Event.Fatal pkg fnc err now => (Fatal l pkg fnc err now).state
  | Event.Error pkg fnc err now => (Error l pkg fnc err now).state
  | Event.Warning pkg fnc data now => (Warning l pkg fnc data now).state
  | Event.Info pkg fnc data now => (Info l pkg fnc data now).state
  | Event.Debug pkg fnc data now => (Debug l pkg fnc data now).state
  | Event.Stop => (Stop l).state
  | Event.writer c => (logWriter l c).getD l

/-- State after a run. -/
def exec (l : Logger) (run : List Event) : Logger :=
  run.foldl step l

/-- A call of one of the five public emit operations. -/
def Event.isEmit : Event → Bool
  | Event.Fatal _ _ _ _ => true
  | Event.Error _ _ _ _ => true
  | Event.Warning _ _ _ _ => true
  | Event.Info _ _ _ _ => true
  | Event.Debug _ _ _ _ => true
  | _ => false

/-- A step of the consumer goroutine. -/
def Event.isWriter : Event → Bool
  | Event.writer _ => true
  | _ => false

/-- A call of `Stop`. -/
def Event.isStop : Event → Bool
  | Event.Stop => true
  | _ => false

/-! ## Observations -/

/-- The line `logWriter` appends to the file for `msg`. -/
def fileLine (msg : message) : String :=
  msgstring msg ++ "\n"

/-- The lines `writeConsole` handed to the standard logger, oldest first. -/
def console (l : Logger) : List String :=
  l.stdlog.filterMap fun r =>
    match r with
    | LogRecord.line s => some s
    | LogRecord.failure _ => none

/-- The six level tokens. -/
def levelTokens : List String :=
  ["FATAL", "ERROR", "WARNING", "INFO", "DEBUG", "CUSTOM"]

/-- The line format of the log file: a timestamp as `newMessage` prints it, one
of the six level tokens, a payload, a newline. -/
def WellFormedLine (s : String) : Prop :=
  ∃ t : Time, ∃ lvl ∈ levelTokens, ∃ payload : String,
    s = msgtime t ++ " | " ++ lvl ++ " | " ++ payload ++ "\n"

/-! ## Invariants and auxiliary states -/

/-- The state after `msg` entered the buffer of `l.messages`. -/
def enqueue (l : Logger) (msg : message) : Logger :=
  { l with queue := l.queue ++ [msg], history := l.history ++ [msg] }

/-- The state after a sender of `msg` parked on the full channel `l.messages`. -/
def park (l : Logger) (msg : message) : Logger :=
  { l with sendq := l.sendq ++ [msg] }

/-- The ways a call of an emit operation on `l` can end without a panic: the
message is discarded, it is appended to the queue, or the caller is parked
with its message behind the senders already parked. -/
def Accepted (l : Logger) (o : Outcome) : Prop :=
  o = Outcome.returned l ∨ (∃ msg, o = Outcome.returned (enqueue l msg)) ∨
    ∃ msg, o = Outcome.blocked (park l msg)

/-- The mirror invariant: the file holds the console lines, each with its newline,
in the same order, followed by the line whose mirror is pending, if any. -/
def Mirrored (l : Logger) : Prop :=
  (l.writer = Writer.starting → l.file = []) ∧
    match l.writer with
    | Writer.mirroring s => l.file = (console l).map (fun x => x ++ "\n") ++ [s ++ "\n"]
    | _ => l.file = (console l).map (fun x => x ++ "\n")

/-- The invariant of a logger whose threshold is below `FATAL`, as long as
`Stop` is not called: nothing was enqueued, nothing was written. -/
def Silent (l : Logger) : Prop :=
  l.loglevel ≤ 0 ∧ l.closed = false ∧ l.stopper = Stopper.idle ∧ l.queue = [] ∧
    l.sendq = [] ∧ l.history = [] ∧ l.file = [] ∧ console l = [] ∧
    ∀ s, l.writer ≠ Writer.mirroring s

/-- The state after the consumer received `msg`, leaving `l`, and appended its
line to the file: `writeConsole` is pending. -/
def written (l : Logger) (msg : message) : Logger :=
  { l with file := l.file ++ [msgstring msg ++ "\n"], writer := Writer.mirroring (msgstring msg) }

/-- The state after the consumer received a message, leaving `l`, and
`WriteString` failed with `e`: the failure is logged and the goroutine returns. -/
def failed (l : Logger) (e : String) : Logger :=
  deferred { l with stdlog := l.stdlog ++ [LogRecord.failure e] }

/-- The state after the head of a non-full queue was received. -/
def dequeued (l : Logger) : Logger :=
  { l with queue := l.queue.tail }

/-- A stage of the end-to-end scenario: threshold 4, no parked sender, `h` the
messages enqueued so far, `c` whether `l.messages` was closed. -/
def Stage (l : Logger) (c : Bool) (h : List message) : Prop :=
  l.loglevel = 4 ∧ l.closed = c ∧ l.sendq = [] ∧ l.history = h ∧ l.queue.length ≤ h.length

/-- The end-to-end scenario: the calls `Info("svc","start","booting")`,
`Debug("svc","tick","x")`, `Error("svc","fail",someErr)` and `Stop()` in that
order, at times `t1`, `t2`, `t3`, with the steps `s0` ... `s4` of the consumer
scheduled before, between and after them. -/
def scenario (s0 s1 s2 s3 s4 : List Choice) (t1 t2 t3 : Time) (someErr : error) :
    List Event :=
  s0.map Event.writer ++ Event.Info "svc" "start" "booting" t1 ::
    (s1.map Event.writer ++ Event.Debug "svc" "tick" "x" t2 ::
      (s2.map Event.writer ++ Event.Error "svc" "fail" (some someErr) t3 ::
        (s3.map Event.writer ++ Event.Stop :: s4.map Event.writer)))

/-- The line written for the zero value of `message`. -/
def zeroLine : String := fileLine message.zero

/-- The order invariant: the messages that entered the buffer are those already
received (`pre`) followed by the buffer; the file holds the lines of `pre`, all
of them while the consumer is alive, followed by `k` lines of zero values read
from the closed and drained channel. -/
def Ordered (l : Logger) : Prop :=
  ∃ (pre : List message) (k : Nat),
    l.history = pre ++ l.queue ∧
    l.file <+: pre.map fileLine ++ List.replicate k zeroLine ∧
    (l.writer ≠ Writer.exited → l.file = pre.map fileLine ++ List.replicate k zeroLine) ∧
    (l.writer = Writer.starting → pre = [] ∧ k = 0) ∧
    (k = 0 ∨ (l.closed = true ∧ l.queue = []))

/-- The shutdown invariant: `Stop` has returned only if `logWriter` has, and a
`Stop` that got past its first statement has closed `l.messages`. -/
def Stopped (l : Logger) : Prop :=
  (l.stopper = Stopper.returned → l.writer = Writer.exited) ∧
    (l.stopper ≠ Stopper.idle → l.closed = true)

/-- A stand-in for `filepath.Join` in concrete runs. -/
def joinPath (dir name : String) : String :=
  dir ++ "/" ++ name

/-- The instant used in concrete runs. -/
def noon : Time :=
  { Day := 1, Month := 11, Year := 2026, Hour := 12, Minute := 0, Second := 0 }

/-- The message of each call `Info("svc","op","x")` at `noon`. -/
def fillMsg : message :=
  { datetime := msgtime noon, level := "INFO", pkg := "svc", fnc := "op", data := "x" }

/-- The message of the call `Warning("svc","op","y")` at `noon`. -/
def lateMsg : message :=
  { datetime := msgtime noon, level := "WARNING", pkg := "svc", fnc := "op", data := "y" }

/-- The logger after `NewLogger(dir, 4)` and 256 calls of `Info` with no step of
the consumer in between: its queue is full. -/
def filled : Logger :=
  exec (NewLogger joinPath "logs" 4 noon) (List.replicate 256 (Event.Info "svc" "op" "x" noon))

/-! ## Case analysis of the operations -/

theorem send_cases (l : Logger) (msg : message) :
    (l.closed = true ∧ send l msg = Outcome.panicked l) ∨
    (l.closed = false ∧ l.queue.length < messagesCap ∧
      send l msg =
        Outcome.returned { l with queue := l.queue ++ [msg], history := l.history ++ [msg] }) ∨
    (l.closed = false ∧ messagesCap ≤ l.queue.length ∧
      send l msg = Outcome.blocked { l with sendq := l.sendq ++ [msg] }) := by
  unfold send
  cases hc : l.closed
  · by_cases hlen : l.queue.length < messagesCap
    · simp [hlen]
    · right; right
      simp [hlen, Nat.le_of_not_lt hlen]
  · simp

theorem newMessage_cases (l : Logger) (level : LogLevel) (pkg fnc data : String) (now : Time) :
    (level > l.loglevel ∧ newMessage l level pkg fnc data now = Outcome.returned l) ∨
    (level ≤ l.loglevel ∧
      newMessage l level pkg fnc data now =
        send l
          { datetime := msgtime now, level := levelstr level, pkg := pkg, fnc := fnc,
            data := data }) := by
  unfold newMessage
  by_cases h : level > l.loglevel
  · left; simp [h]
  · right; simp [h, Int.not_lt.mp h]

/-- Every event either leaves the state alone, performs one channel send, is a
call of `Stop`, or is an enabled step of `logWriter`. -/
theorem step_cases (l : Logger) (e : Event) :
    step l e = l ∨ (∃ msg, e.isStop = false ∧ step l e = (send l msg).state) ∨
      (e = Event.Stop ∧ step l e = (Stop l).state) ∨
      ∃ c l1, e = Event.writer c ∧ logWriter l c = some l1 ∧ step l e = l1 := by
  have nm : ∀ level pkg fnc data now,
      (newMessage l level pkg fnc data now).state = l ∨
        ∃ msg, (newMessage l level pkg fnc data now).state = (send l msg).state := by
    intro level pkg fnc data now
    rcases newMessage_cases l level pkg fnc data now with ⟨_, h⟩ | ⟨_, h⟩
    · left; rw [h]; rfl
    · right; exact ⟨_, by rw [h]⟩
  cases e with
  | newMessage level pkg fnc data now =>
    rcases nm level pkg fnc data now with h | ⟨msg, h⟩
    · exact Or.inl h
    · exact Or.inr (Or.inl ⟨msg, rfl, h⟩)
  | Fatal pkg fnc err now =>
    cases err with
    | none => left; rfl
    | some e =>
      rcases nm LogLevelFatal pkg fnc e.Error now with h | ⟨msg, h⟩
      · exact Or.inl h
      · exact Or.inr (Or.inl ⟨msg, rfl, h⟩)
  | Error pkg fnc err now =>
    cases err with
    | none => left; rfl
    | some e =>
      rcases nm LogLevelError pkg fnc e.Error now with h | ⟨msg, h⟩
      · exact Or.inl h
      · exact Or.inr (Or.inl ⟨msg, rfl, h⟩)
  | Warning pkg fnc data now =>
    rcases nm LogLevelWarning pkg fnc data now with h | ⟨msg, h⟩
    · exact Or.inl h
    · exact Or.inr (Or.inl ⟨msg, rfl, h⟩)
  | Info pkg fnc data now =>
    rcases nm LogLevelInfo pkg fnc data now with h | ⟨msg, h⟩
    · exact Or.inl h
    · exact Or.inr (Or.inl ⟨msg, rfl, h⟩)
  | Debug pkg fnc data now =>
    rcases nm LogLevelDebug pkg fnc data now with h | ⟨msg, h⟩
    · exact Or.inl h
    · exact Or.inr (Or.inl ⟨msg, rfl, h⟩)
  | Stop => right; right; left; exact ⟨rfl, rfl⟩
  | writer c =>
    cases h : logWriter l c with
    | none => left; simp [step, h]
    | some l1 => right; right; right; exact ⟨c, l1, rfl, h, by simp [step, h]⟩

/-- A call of a public emit operation either leaves the state alone or sends a
message whose level, between 1 and 5, passed the threshold. -/
theorem emit_cases (l : Logger) (e : Event) (he : e.isEmit = true) :
    step l e = l ∨ ∃ level msg, 1 ≤ level ∧ level ≤ 5 ∧ level ≤ l.loglevel ∧
      msg.level = levelstr level ∧ step l e = (send l msg).state := by
  have nm : ∀ level pkg fnc data now, 1 ≤ level → level ≤ 5 →
      (newMessage l level pkg fnc data now).state = l ∨
        ∃ lv msg, 1 ≤ lv ∧ lv ≤ 5 ∧ lv ≤ l.loglevel ∧ msg.level = levelstr lv ∧
          (newMessage l level pkg fnc data now).state = (send l msg).state := by
    intro level pkg fnc data now h1 h5
    rcases newMessage_cases l level pkg fnc data now with ⟨_, h⟩ | ⟨hle, h⟩
    · left; rw [h]; rfl
    · right; exact ⟨level, _, h1, h5, hle, rfl, by rw [h]⟩
  cases e with
  | newMessage level pkg fnc data now => simp [Event.isEmit] at he
  | Fatal pkg fnc err now =>
    cases err with
    | none => left; rfl
    | some e => exact nm LogLevelFatal pkg fnc e.Error now (by decide) (by decide)
  | Error pkg fnc err now =>
    cases err with
    | none => left; rfl
    | some e => exact nm LogLevelError pkg fnc e.Error now (by decide) (by decide)
  | Warning pkg fnc data now => exact nm LogLevelWarning pkg fnc data now (by decide) (by decide)
  | Info pkg fnc data now => exact nm LogLevelInfo pkg fnc data now (by decide) (by decide)
  | Debug pkg fnc data now => exact nm LogLevelDebug pkg fnc data now (by decide) (by decide)
  | Stop => simp [Event.isEmit] at he
  | writer c => simp [Event.isEmit] at he

theorem recv_cases (l l1 : Logger) (msg : message) (h : recv l = some (msg, l1)) :
    (∃ rest, l.queue = msg :: rest ∧ l.sendq = [] ∧ l1 = { l with queue := rest }) ∨
    (∃ rest s ss, l.queue = msg :: rest ∧ l.sendq = s :: ss ∧
      l1 = { l with queue := rest ++ [s], sendq := ss, history := l.history ++ [s] }) ∨
    (l.queue = [] ∧ l.closed = true ∧ msg = message.zero ∧ l1 = l) := by
  unfold recv at h
  cases hq : l.queue with
  | nil =>
    rw [hq] at h
    cases hc : l.closed with
    | false => simp [hc] at h
    | true =>
      simp [hc] at h
      right; right
      exact ⟨rfl, rfl, h.1.symm, h.2.symm⟩
  | cons m rest =>
    rw [hq] at h
    cases hs : l.sendq with
    | nil =>
      rw [hs] at h
      simp at h
      left
      exact ⟨rest, by rw [h.1], rfl, by rw [← h.2]⟩
    | cons s ss =>
      rw [hs] at h
      simp at h
      right; left
      exact ⟨rest, s, ss, by rw [h.1], rfl, by rw [← h.2]⟩

/-- The enabled steps of `logWriter`, one disjunct per path through its body. -/
theorem logWriter_cases (l l2 : Logger) (c : Choice) (h : logWriter l c = some l2) :
    (l.writer = Writer.starting ∧
      l2 = { l with file := [], fileOpen := true, writer := Writer.selecting }) ∨
    (l.writer = Writer.starting ∧ ∃ e,
      l2 = { l with stdlog := l.stdlog ++ [LogRecord.failure e], writer := Writer.exited }) ∨
    (l.writer = Writer.selecting ∧ ∃ msg l1, recv l = some (msg, l1) ∧
      l2 = { l1 with file := l1.file ++ [fileLine msg],
                     writer := Writer.mirroring (msgstring msg) }) ∨
    (l.writer = Writer.selecting ∧ ∃ msg l1 e, recv l = some (msg, l1) ∧
      l2 = deferred { l1 with stdlog := l1.stdlog ++ [LogRecord.failure e] }) ∨
    (∃ s, l.writer = Writer.mirroring s ∧
      l2 = writeConsole { l with writer := Writer.selecting } s) ∨
    (l.writer = Writer.selecting ∧ l.stopper = Stopper.sending ∧
      l2 = deferred { l with stopper := Stopper.returned }) := by
  unfold logWriter at h
  split at h
  · left; exact ⟨by assumption, (Option.some.inj h).symm⟩
  · right; left; exact ⟨by assumption, _, (Option.some.inj h).symm⟩
  · rename_i r hw
    cases hr : recv l with
    | none => simp [hr] at h
    | some p =>
      obtain ⟨msg, l1⟩ := p
      rw [hr] at h
      cases r with
      | none =>
        right; right; left
        refine ⟨hw, msg, l1, rfl, ?_⟩
        simpa [writeFile, fileLine] using h.symm
      | some e =>
        right; right; right; left
        refine ⟨hw, msg, l1, e, rfl, ?_⟩
        simpa [writeFile] using h.symm
  · right; right; right; right; left
    exact ⟨_, by assumption, (Option.some.inj h).symm⟩
  · right; right; right; right; right
    rename_i hw
    by_cases hs : l.stopper = Stopper.sending
    · rw [if_pos hs] at h
      exact ⟨hw, hs, (Option.some.inj h).symm⟩
    · rw [if_neg hs] at h
      exact absurd h (by simp)
  · exact absurd h (by simp)

/-! ## Invariants of runs -/

theorem exec_append (l : Logger) (r1 r2 : List Event) :
    exec l (r1 ++ r2) = exec (exec l r1) r2 := by
  simp [exec, List.foldl_append]

theorem exec_cons (l : Logger) (e : Event) (run : List Event) :
    exec l (e :: run) = exec (step l e) run := rfl

theorem exec_singleton (l : Logger) (e : Event) : exec l [e] = step l e := rfl

/-- A property kept by every step that a run is allowed to take holds after the run. -/
theorem exec_induction (P : Logger → Prop) (ok : Event → Prop)
    (hstep : ∀ l e, ok e → P l → P (step l e)) :
    ∀ (run : List Event) (l : Logger), (∀ e ∈ run, ok e) → P l → P (exec l run) := by
  intro run
  induction run with
  | nil => intro l _ h; exact h
  | cons e run ih =>
    intro l hok h
    rw [exec_cons]
    exact ih (step l e) (fun x hx => hok x (List.mem_cons_of_mem e hx))
      (hstep l e (hok e (List.mem_cons_self e run)) h)

theorem Ordered_NewLogger (Join : String → String → String) (path : String) (level : LogLevel)
    (now : Time) : Ordered (NewLogger Join path level now) :=
  ⟨[], 0, by simp [NewLogger]⟩

theorem Ordered_send (l : Logger) (msg : message) (h : Ordered l) :
    Ordered (send l msg).state := by
  obtain ⟨pre, k, h1, h2, h3, h4, h5⟩ := h
  rcases send_cases l msg with ⟨_, hs⟩ | ⟨hc, _, hs⟩ | ⟨_, _, hs⟩
  · rw [hs]; exact ⟨pre, k, h1, h2, h3, h4, h5⟩
  · rw [hs]
    have hk : k = 0 := by
      rcases h5 with h5 | h5
      · exact h5
      · rw [hc] at h5; exact absurd h5.1 (by simp)
    refine ⟨pre, k, ?_, h2, h3, h4, Or.inl hk⟩
    simp [Outcome.state, h1]
  · rw [hs]; exact ⟨pre, k, h1, h2, h3, h4, h5⟩

theorem Ordered_Stop (l : Logger) (h : Ordered l) : Ordered (Stop l).state := by
  obtain ⟨pre, k, h1, h2, h3, h4, h5⟩ := h
  have h5b : k = 0 ∨ l.queue = [] := h5.imp id And.right
  unfold Stop
  split
  · exact ⟨pre, k, h1, h2, h3, h4, h5⟩
  · split
    · exact ⟨pre, k, h1, h2, h3, h4, h5b.imp id fun hq => ⟨rfl, hq⟩⟩
    · exact ⟨pre, k, h1, h2, h3, h4, h5b.imp id fun hq => ⟨rfl, hq⟩⟩

theorem Ordered_logWriter (l l2 : Logger) (c : Choice) (hw : logWriter l c = some l2)
    (h : Ordered l) : Ordered l2 := by
  obtain ⟨pre, k, h1, h2, h3, h4, h5⟩ := h
  rcases logWriter_cases l l2 c hw with ⟨hs, rfl⟩ | ⟨hs, e, rfl⟩ | ⟨hs, msg, l1, hr, rfl⟩ |
    ⟨hs, msg, l1, e, hr, rfl⟩ | ⟨s, hs, rfl⟩ | ⟨hs, _, rfl⟩
  · obtain ⟨rfl, rfl⟩ := h4 hs
    exact ⟨[], 0, h1, by simp, by simp, by simp, Or.inl rfl⟩
  · exact ⟨pre, k, h1, h2, by simp, by simp, h5⟩
  · have hfile := h3 (by rw [hs]; simp)
    rcases recv_cases l l1 msg hr with ⟨rest, hq, _, rfl⟩ | ⟨rest, s, ss, hq, _, rfl⟩ |
      ⟨hq, hc, rfl, rfl⟩
    · have hk : k = 0 := by
        rcases h5 with h5 | h5
        · exact h5
        · rw [hq] at h5; exact absurd h5.2 (by simp)
      subst hk
      refine ⟨pre ++ [msg], 0, ?_, ?_, ?_, by simp, Or.inl rfl⟩
      · simp [h1, hq]
      · simp [hfile]
      · intro _; simp [hfile]
    · have hk : k = 0 := by
        rcases h5 with h5 | h5
        · exact h5
        · rw [hq] at h5; exact absurd h5.2 (by simp)
      subst hk
      refine ⟨pre ++ [msg], 0, ?_, ?_, ?_, by simp, Or.inl rfl⟩
      · simp [h1, hq]
      · simp [hfile]
      · intro _; simp [hfile]
    · refine ⟨pre, k + 1, h1, ?_, ?_, by simp, Or.inr ⟨hc, hq⟩⟩
      · simp [hfile, List.replicate_succ', zeroLine]
      · intro _; simp [hfile, List.replicate_succ', zeroLine]
  · have hfile := h3 (by rw [hs]; simp)
    rcases recv_cases l l1 msg hr with ⟨rest, hq, _, rfl⟩ | ⟨rest, s, ss, hq, _, rfl⟩ |
      ⟨hq, hc, rfl, rfl⟩
    · have hk : k = 0 := by
        rcases h5 with h5 | h5
        · exact h5
        · rw [hq] at h5; exact absurd h5.2 (by simp)
      subst hk
      refine ⟨pre ++ [msg], 0, ?_, ?_, ?_, by simp [deferred], Or.inl rfl⟩
      · simp [deferred, h1, hq]
      · simp [deferred, hfile]
      · intro hne; exact absurd rfl hne
    · have hk : k = 0 := by
        rcases h5 with h5 | h5
        · exact h5
        · rw [hq] at h5; exact absurd h5.2 (by simp)
      subst hk
      refine ⟨pre ++ [msg], 0, ?_, ?_, ?_, by simp [deferred], Or.inl rfl⟩
      · simp [deferred, h1, hq]
      · simp [deferred, hfile]
      · intro hne; exact absurd rfl hne
    · refine ⟨pre, k, h1, h2, ?_, by simp [deferred], h5⟩
      intro hne; exact absurd rfl hne
  · exact ⟨pre, k, h1, h2, fun _ => h3 (by rw [hs]; simp), by simp [writeConsole], h5⟩
  · exact ⟨pre, k, h1, h2, fun hne => absurd rfl hne, by simp [deferred], h5⟩

theorem Ordered_step (l : Logger) (e : Event) (h : Ordered l) : Ordered (step l e) := by
  rcases step_cases l e with hs | ⟨msg, _, hs⟩ | ⟨_, hs⟩ | ⟨c, l1, _, hw, hs⟩
  · rw [hs]; exact h
  · rw [hs]; exact Ordered_send l msg h
  · rw [hs]; exact Ordered_Stop l h
  · rw [hs]; exact Ordered_logWriter l l1 c hw h

/-! ### Capacity, closing, the mirror, shutdown -/

theorem cap_step (l : Logger) (e : Event) (h : l.queue.length ≤ messagesCap) :
    (step l e).queue.length ≤ messagesCap := by
  rcases step_cases l e with hs | ⟨msg, _, hs⟩ | ⟨_, hs⟩ | ⟨c, l1, _, hw, hs⟩
  · rw [hs]; exact h
  · rw [hs]
    rcases send_cases l msg with ⟨_, h1⟩ | ⟨_, hlt, h1⟩ | ⟨_, _, h1⟩
    · rw [h1]; exact h
    · rw [h1]; simp only [Outcome.state, List.length_append, List.length_singleton]; omega
    · rw [h1]; exact h
  · rw [hs]; unfold Stop
    split
    · exact h
    · split <;> exact h
  · rw [hs]
    have hrecv : ∀ msg l1, recv l = some (msg, l1) → l1.queue.length ≤ messagesCap := by
      intro msg l1 hr
      rcases recv_cases l l1 msg hr with ⟨rest, hq, _, rfl⟩ | ⟨rest, s, ss, hq, _, rfl⟩ |
        ⟨_, _, _, rfl⟩
      · rw [hq] at h; simp only [List.length_cons] at h ⊢; omega
      · rw [hq] at h
        simp only [List.length_cons, List.length_append, List.length_nil] at h ⊢
        omega
      · exact h
    rcases logWriter_cases l l1 c hw with ⟨_, rfl⟩ | ⟨_, e, rfl⟩ | ⟨_, msg, l0, hr, rfl⟩ |
      ⟨_, msg, l0, e, hr, rfl⟩ | ⟨s, _, rfl⟩ | ⟨_, _, rfl⟩
    · exact h
    · exact h
    · exact hrecv msg l0 hr
    · exact hrecv msg l0 hr
    · exact h
    · exact h

/-- Only `Stop` closes `l.messages`. -/
theorem closed_step (l : Logger) (e : Event) (he : e.isStop = false) :
    (step l e).closed = l.closed := by
  rcases step_cases l e with hs | ⟨msg, _, hs⟩ | ⟨h, _⟩ | ⟨c, l1, _, hw, hs⟩
  · rw [hs]
  · rw [hs]
    rcases send_cases l msg with ⟨_, h1⟩ | ⟨_, _, h1⟩ | ⟨_, _, h1⟩ <;> rw [h1] <;> rfl
  · rw [h] at he; simp [Event.isStop] at he
  · rw [hs]
    have hrecv : ∀ msg l1, recv l = some (msg, l1) → l1.closed = l.closed := by
      intro msg l1 hr
      rcases recv_cases l l1 msg hr with ⟨rest, _, _, rfl⟩ | ⟨rest, s, ss, _, _, rfl⟩ |
        ⟨_, _, _, rfl⟩ <;> rfl
    rcases logWriter_cases l l1 c hw with ⟨_, rfl⟩ | ⟨_, e, rfl⟩ | ⟨_, msg, l0, hr, rfl⟩ |
      ⟨_, msg, l0, e, hr, rfl⟩ | ⟨s, _, rfl⟩ | ⟨_, _, rfl⟩
    · rfl
    · rfl
    · exact hrecv msg l0 hr
    · exact hrecv msg l0 hr
    · rfl
    · rfl

/-- Once `logWriter` has returned, no event changes the file. -/
theorem exited_step (l : Logger) (e : Event) (h : l.writer = Writer.exited) :
    (step l e).writer = Writer.exited ∧ (step l e).file = l.file := by
  rcases step_cases l e with hs | ⟨msg, _, hs⟩ | ⟨_, hs⟩ | ⟨c, l1, _, hw, hs⟩
  · rw [hs]; exact ⟨h, rfl⟩
  · rw [hs]
    rcases send_cases l msg with ⟨_, h1⟩ | ⟨_, _, h1⟩ | ⟨_, _, h1⟩ <;> rw [h1] <;>
      exact ⟨h, rfl⟩
  · rw [hs]; unfold Stop
    split
    · exact ⟨h, rfl⟩
    · split <;> exact ⟨h, rfl⟩
  · rcases logWriter_cases l l1 c hw with ⟨h1, _⟩ | ⟨h1, _⟩ | ⟨h1, _⟩ | ⟨h1, _⟩ | ⟨s, h1, _⟩ |
      ⟨h1, _⟩ <;> rw [h] at h1 <;> exact absurd h1 (by simp)

theorem exited_exec (run : List Event) (l : Logger) (h : l.writer = Writer.exited) :
    (exec l run).writer = Writer.exited ∧ (exec l run).file = l.file := by
  induction run generalizing l with
  | nil => exact ⟨h, rfl⟩
  | cons e run ih =>
    rw [exec_cons]
    obtain ⟨h1, h2⟩ := exited_step l e h
    obtain ⟨h3, h4⟩ := ih (step l e) h1
    exact ⟨h3, h4.trans h2⟩

theorem Stopped_step (l : Logger) (e : Event) (h : Stopped l) : Stopped (step l e) := by
  obtain ⟨h1, h2⟩ := h
  rcases step_cases l e with hs | ⟨msg, _, hs⟩ | ⟨_, hs⟩ | ⟨c, l1, _, hw, hs⟩
  · rw [hs]; exact ⟨h1, h2⟩
  · rw [hs]
    rcases send_cases l msg with ⟨_, h3⟩ | ⟨_, _, h3⟩ | ⟨_, _, h3⟩ <;> rw [h3] <;>
      exact ⟨h1, h2⟩
  · rw [hs]; unfold Stop
    split
    · exact ⟨h1, h2⟩
    · split
      · exact ⟨h1, fun _ => rfl⟩
      · exact ⟨fun hr => by simp [Outcome.state] at hr, fun _ => rfl⟩
  · rw [hs]
    have hrecv : ∀ msg l1, recv l = some (msg, l1) →
        l1.stopper = l.stopper ∧ l1.closed = l.closed := by
      intro msg l1 hr
      rcases recv_cases l l1 msg hr with ⟨rest, _, _, rfl⟩ | ⟨rest, s, ss, _, _, rfl⟩ |
        ⟨_, _, _, rfl⟩ <;> exact ⟨rfl, rfl⟩
    have hret : ∀ w : Writer, l.writer = w → w ≠ Writer.exited → l.stopper ≠ Stopper.returned :=
      fun w hw1 hw2 hr => hw2 (by rw [← hw1]; exact h1 hr)
    rcases logWriter_cases l l1 c hw with ⟨hs1, rfl⟩ | ⟨hs1, e, rfl⟩ | ⟨hs1, msg, l0, hr, rfl⟩ |
      ⟨hs1, msg, l0, e, hr, rfl⟩ | ⟨s, hs1, rfl⟩ | ⟨hs1, hsend, rfl⟩
    · exact ⟨fun hr => absurd hr (hret _ hs1 (by simp)), h2⟩
    · exact ⟨fun _ => rfl, h2⟩
    · obtain ⟨e1, e2⟩ := hrecv msg l0 hr
      refine ⟨fun hr => absurd (e1 ▸ hr) (hret _ hs1 (by simp)), fun hne => ?_⟩
      exact e2.trans (h2 (e1 ▸ hne))
    · obtain ⟨e1, e2⟩ := hrecv msg l0 hr
      refine ⟨fun _ => rfl, fun hne => ?_⟩
      have hidle : l.stopper ≠ Stopper.idle := by
        intro hi
        apply hne
        simp [deferred, e1, hi]
      exact e2.trans (h2 hidle)
    · exact ⟨fun hr => absurd hr (hret _ hs1 (by simp)), h2⟩
    · exact ⟨fun _ => rfl, fun _ => h2 (by rw [hsend]; simp)⟩

theorem closed_mono (l : Logger) (e : Event) (h : l.closed = true) :
    (step l e).closed = true := by
  cases he : e.isStop with
  | false => rw [closed_step l e he]; exact h
  | true =>
    cases e <;> simp [Event.isStop] at he
    simp [step, Stop, h, Outcome.state]

theorem closed_exec (run : List Event) (l : Logger) (h : l.closed = true) :
    (exec l run).closed = true :=
  exec_induction (fun l => l.closed = true) (fun _ => True)
    (fun l e _ hl => closed_mono l e hl) run l (fun _ _ => trivial) h

theorem Stopped_NewLogger (Join : String → String → String) (path : String) (level : LogLevel)
    (now : Time) : Stopped (NewLogger Join path level now) := by
  simp [Stopped, NewLogger]

/-- On a closed channel a call of `newMessage` is filtered or panics. -/
theorem newMessage_closed (l : Logger) (level : LogLevel) (pkg fnc data : String) (now : Time)
    (h : l.closed = true) :
    newMessage l level pkg fnc data now = Outcome.returned l ∨
      newMessage l level pkg fnc data now = Outcome.panicked l := by
  rcases newMessage_cases l level pkg fnc data now with ⟨_, h1⟩ | ⟨_, h1⟩
  · exact Or.inl h1
  · right; rw [h1]; simp [send, h]

/-- On an open channel a call of `newMessage` is filtered, enqueued or parked. -/
theorem newMessage_open (l : Logger) (level : LogLevel) (pkg fnc data : String) (now : Time)
    (h : l.closed = false) : Accepted l (newMessage l level pkg fnc data now) := by
  rcases newMessage_cases l level pkg fnc data now with ⟨_, h1⟩ | ⟨_, h1⟩
  · exact Or.inl h1
  · rw [h1]
    rcases send_cases l _ with ⟨hc, _⟩ | ⟨_, _, h2⟩ | ⟨_, _, h2⟩
    · rw [h] at hc; exact absurd hc (by simp)
    · exact Or.inr (Or.inl ⟨_, h2⟩)
    · exact Or.inr (Or.inr ⟨_, h2⟩)

/-- An admitted message sent on an open channel with a free slot is appended. -/
theorem newMessage_admitted (l : Logger) (level : LogLevel) (pkg fnc data : String) (now : Time)
    (hopen : l.closed = false) (hroom : l.queue.length < messagesCap)
    (hle : level ≤ l.loglevel) :
    newMessage l level pkg fnc data now =
      Outcome.returned (enqueue l
        { datetime := msgtime now, level := levelstr level, pkg := pkg, fnc := fnc,
          data := data }) := by
  rcases newMessage_cases l level pkg fnc data now with ⟨hgt, _⟩ | ⟨_, h1⟩
  · exact absurd hle (Int.not_le.mpr hgt)
  · rw [h1]; simp [send, hopen, hroom, enqueue]

theorem newMessage_filtered (l : Logger) (level : LogLevel) (pkg fnc data : String) (now : Time)
    (hgt : level > l.loglevel) : newMessage l level pkg fnc data now = Outcome.returned l := by
  simp [newMessage, hgt]

theorem enqueue_ne (l : Logger) (msg : message) : enqueue l msg ≠ l := by
  intro h
  have := congrArg (fun x => x.queue.length) h
  simp [enqueue] at this

theorem levelstr_custom (level : Int) (h : level < 1 ∨ level > 5) :
    levelstr level = "CUSTOM" := by
  have h1 : level ≠ 1 := by omega
  have h2 : level ≠ 2 := by omega
  have h3 : level ≠ 3 := by omega
  have h4 : level ≠ 4 := by omega
  have h5 : level ≠ 5 := by omega
  simp [levelstr, LogLevelFatal, LogLevelError, LogLevelWarning, LogLevelInfo, LogLevelDebug,
    h1, h2, h3, h4, h5]

theorem levelstr_named (level : Int) (h1 : 1 ≤ level) (h5 : level ≤ 5) :
    levelstr level ≠ "CUSTOM" := by
  have h : level = 1 ∨ level = 2 ∨ level = 3 ∨ level = 4 ∨ level = 5 := by omega
  rcases h with h | h | h | h | h <;> subst h <;> decide

/-! ## The claims -/

/-- C1. Level filter of `newMessage`: on a logger whose queue is open and has a
free slot, a call with level `L` and threshold `T` appends exactly one message
to the queue if and only if `L ≤ T`; when `L > T` it returns with the state,
and so the queue, unchanged (this half needs no assumption on the queue). With
`T = 3` the operations `Fatal`, `Error`, `Warning` append a message and `Info`,
`Debug` leave the state unchanged. -/
theorem newMessage_enqueues_iff_level_le (l : Logger) (level : LogLevel)
    (pkg fnc data : String) (now : Time) (err : error)
    (hopen : l.closed = false) (hroom : l.queue.length < messagesCap) :
    ((∃ msg, newMessage l level pkg fnc data now = Outcome.returned (enqueue l msg)) ↔
        level ≤ l.loglevel) ∧
    (level > l.loglevel → newMessage l level pkg fnc data now = Outcome.returned l) ∧
    (l.loglevel = 3 →
      (∃ msg, Fatal l pkg fnc (some err) now = Outcome.returned (enqueue l msg)) ∧
      (∃ msg, Error l pkg fnc (some err) now = Outcome.returned (enqueue l msg)) ∧
      (∃ msg, Warning l pkg fnc data now = Outcome.returned (enqueue l msg)) ∧
      Info l pkg fnc data now = Outcome.returned l ∧
      Debug l pkg fnc data now = Outcome.returned l) := by
  refine ⟨⟨?_, ?_⟩, newMessage_filtered l level pkg fnc data now, ?_⟩
  · rintro ⟨msg, h⟩
    by_contra hgt
    rw [newMessage_filtered l level pkg fnc data now (Int.not_le.mp hgt)] at h
    exact enqueue_ne l msg (Outcome.returned.inj h).symm
  · intro hle
    exact ⟨_, newMessage_admitted l level pkg fnc data now hopen hroom hle⟩
  · intro hT
    refine ⟨?_, ?_, ?_, ?_, ?_⟩
    · exact ⟨_, newMessage_admitted l LogLevelFatal pkg fnc err.Error now hopen hroom
        (by rw [hT]; decide)⟩
    · exact ⟨_, newMessage_admitted l LogLevelError pkg fnc err.Error now hopen hroom
        (by rw [hT]; decide)⟩
    · exact ⟨_, newMessage_admitted l LogLevelWarning pkg fnc data now hopen hroom
        (by rw [hT]; decide)⟩
    · exact newMessage_filtered l LogLevelInfo pkg fnc data now (by rw [hT]; decide)
    · exact newMessage_filtered l LogLevelDebug pkg fnc data now (by rw [hT]; decide)

/-- Witness of C1 on a fresh logger with threshold 3: an `INFO` call is discarded. -/
theorem newMessage_enqueues_iff_level_le_witness :
    (NewLogger joinPath "logs" 3 noon).closed = false ∧
    (NewLogger joinPath "logs" 3 noon).queue.length < messagesCap ∧
    newMessage (NewLogger joinPath "logs" 3 noon) 4 "svc" "start" "booting" noon =
      Outcome.returned (NewLogger joinPath "logs" 3 noon) :=
  ⟨rfl, by decide,
    (newMessage_enqueues_iff_level_le (NewLogger joinPath "logs" 3 noon) 4 "svc" "start"
      "booting" noon ⟨"boom"⟩ rfl (by decide)).2.1 (by decide)⟩

/-- C5. The label of a message built by `newMessage` is `levelstr level`, a
function of the level alone: 1 to 5 give `FATAL`, `ERROR`, `WARNING`, `INFO`,
`DEBUG`, every other level gives `CUSTOM`; an admitted message is appended with
that label whatever the level, so a level outside 1..5 is enqueued as `CUSTOM`
rather than rejected; the five public operations append a message carrying
their own label, and no level from 1 to 5 is labelled `CUSTOM`. -/
theorem level_label_of_level (l : Logger) (level : LogLevel) (pkg fnc data : String)
    (now : Time) (err : error)
    (hopen : l.closed = false) (hroom : l.queue.length < messagesCap) :
    (levelstr 1 = "FATAL" ∧ levelstr 2 = "ERROR" ∧ levelstr 3 = "WARNING" ∧
      levelstr 4 = "INFO" ∧ levelstr 5 = "DEBUG") ∧
    (level < 1 ∨ level > 5 → levelstr level = "CUSTOM") ∧
    (1 ≤ level → level ≤ 5 → levelstr level ≠ "CUSTOM") ∧
    (level ≤ l.loglevel →
      newMessage l level pkg fnc data now =
        Outcome.returned (enqueue l
          { datetime := msgtime now, level := levelstr level, pkg := pkg, fnc := fnc,
            data := data })) ∧
    (level ≤ l.loglevel → (level < 1 ∨ level > 5) →
      newMessage l level pkg fnc data now =
        Outcome.returned (enqueue l
          { datetime := msgtime now, level := "CUSTOM", pkg := pkg, fnc := fnc,
            data := data })) ∧
    (LogLevelFatal ≤ l.loglevel →
      Fatal l pkg fnc (some err) now =
        Outcome.returned (enqueue l
          { datetime := msgtime now, level := "FATAL", pkg := pkg, fnc := fnc,
            data := err.Error })) ∧
    (LogLevelError ≤ l.loglevel →
      Error l pkg fnc (some err) now =
        Outcome.returned (enqueue l
          { datetime := msgtime now, level := "ERROR", pkg := pkg, fnc := fnc,
            data := err.Error })) ∧
    (LogLevelWarning ≤ l.loglevel →
      Warning l pkg fnc data now =
        Outcome.returned (enqueue l
          { datetime := msgtime now, level := "WARNING", pkg := pkg, fnc := fnc,
            data := data })) ∧
    (LogLevelInfo ≤ l.loglevel →
      Info l pkg fnc data now =
        Outcome.returned (enqueue l
          { datetime := msgtime now, level := "INFO", pkg := pkg, fnc := fnc,
            data := data })) ∧
    (LogLevelDebug ≤ l.loglevel →
      Debug l pkg fnc data now =
        Outcome.returned (enqueue l
          { datetime := msgtime now, level := "DEBUG", pkg := pkg, fnc := fnc,
            data := data })) := by
  have hcustom : level < 1 ∨ level > 5 → levelstr level = "CUSTOM" :=
    levelstr_custom level
  refine ⟨⟨by decide, by decide, by decide, by decide, by decide⟩, hcustom, ?_,
    newMessage_admitted l level pkg fnc data now hopen hroom, ?_,
    newMessage_admitted l LogLevelFatal pkg fnc err.Error now hopen hroom,
    newMessage_admitted l LogLevelError pkg fnc err.Error now hopen hroom,
    newMessage_admitted l LogLevelWarning pkg fnc data now hopen hroom,
    newMessage_admitted l LogLevelInfo pkg fnc data now hopen hroom,
    newMessage_admitted l LogLevelDebug pkg fnc data now hopen hroom⟩
  · exact levelstr_named level
  · intro hle hout
    rw [← hcustom hout]
    exact newMessage_admitted l level pkg fnc data now hopen hroom hle

/-- Witness of C5: level 0 under threshold 0 is enqueued with the label `CUSTOM`. -/
theorem level_label_of_level_witness :
    (NewLogger joinPath "logs" 0 noon).closed = false ∧
    (NewLogger joinPath "logs" 0 noon).queue.length < messagesCap ∧
    newMessage (NewLogger joinPath "logs" 0 noon) 0 "svc" "op" "x" noon =
      Outcome.returned (enqueue (NewLogger joinPath "logs" 0 noon)
        { datetime := msgtime noon, level := "CUSTOM", pkg := "svc", fnc := "op",
          data := "x" }) :=
  ⟨rfl, by decide,
    (level_label_of_level (NewLogger joinPath "logs" 0 noon) 0 "svc" "op" "x" noon ⟨"boom"⟩
      rfl (by decide)).2.2.2.2.1 (by decide) (by decide)⟩

/-- C4, as stated, fails: on the logger reached by `NewLogger(dir, 4)`, the
consumer creating its file, `Stop()`, and the consumer taking the stop
notification, the call `Info("svc","start","booting")` panics (send on the
closed channel) instead of being enqueued, discarded or parked. -/
theorem emit_after_Stop_panics :
    Info (exec (NewLogger joinPath "logs" 4 noon)
          [Event.writer (Choice.create none), Event.Stop, Event.writer Choice.recvStop])
        "svc" "start" "booting" noon =
      Outcome.panicked
        (exec (NewLogger joinPath "logs" 4 noon)
          [Event.writer (Choice.create none), Event.Stop, Event.writer Choice.recvStop]) ∧
    ¬ Accepted
        (exec (NewLogger joinPath "logs" 4 noon)
          [Event.writer (Choice.create none), Event.Stop, Event.writer Choice.recvStop])
        (Info (exec (NewLogger joinPath "logs" 4 noon)
            [Event.writer (Choice.create none), Event.Stop, Event.writer Choice.recvStop])
          "svc" "start" "booting" noon) := by
  have h : Info (exec (NewLogger joinPath "logs" 4 noon)
        [Event.writer (Choice.create none), Event.Stop, Event.writer Choice.recvStop])
        "svc" "start" "booting" noon =
      Outcome.panicked
        (exec (NewLogger joinPath "logs" 4 noon)
          [Event.writer (Choice.create none), Event.Stop, Event.writer Choice.recvStop]) := by
    rfl
  refine ⟨h, ?_⟩
  rw [h]
  rintro (h1 | ⟨msg, h1⟩ | ⟨msg, h1⟩) <;> cases h1

/-- On a closed channel an admitted call of `newMessage` panics. -/
theorem newMessage_closed_admitted (l : Logger) (level : LogLevel) (pkg fnc data : String)
    (now : Time) (h : l.closed = true) (hle : level ≤ l.loglevel) :
    newMessage l level pkg fnc data now = Outcome.panicked l := by
  rcases newMessage_cases l level pkg fnc data now with ⟨hgt, _⟩ | ⟨_, h1⟩
  · exact absurd hle (Int.not_le.mpr hgt)
  · rw [h1]; simp [send, h]

/-- C4, amended. While `l.messages` is open, which is so in every state reached
without a call of `Stop`, each of `Fatal`, `Error`, `Warning`, `Info`, `Debug`
with a non-nil error or a text is discarded, enqueued or parked, and does not
panic. Once the channel is closed, a call whose level exceeds the threshold
is discarded, leaving the state as it is, and a call whose level is admitted
panics, leaving the state as it is; this holds for `newMessage` at every
level and so for each of the five operations. The call of `Stop` that closes
the channel makes every sender parked on it panic: they leave the channel
and their messages are recorded as panicked sends. -/
theorem emit_accepted_while_open (l : Logger) (pkg fnc data : String) (now : Time)
    (err : error) :
    (l.closed = false →
      Accepted l (Fatal l pkg fnc (some err) now) ∧
      Accepted l (Error l pkg fnc (some err) now) ∧
      Accepted l (Warning l pkg fnc data now) ∧
      Accepted l (Info l pkg fnc data now) ∧
      Accepted l (Debug l pkg fnc data now)) ∧
    (l.closed = true →
      (∀ lv : LogLevel,
        (lv > l.loglevel → newMessage l lv pkg fnc data now = Outcome.returned l) ∧
        (lv ≤ l.loglevel → newMessage l lv pkg fnc data now = Outcome.panicked l)) ∧
      (LogLevelFatal > l.loglevel → Fatal l pkg fnc (some err) now = Outcome.returned l) ∧
      (LogLevelFatal ≤ l.loglevel → Fatal l pkg fnc (some err) now = Outcome.panicked l) ∧
      (LogLevelError > l.loglevel → Error l pkg fnc (some err) now = Outcome.returned l) ∧
      (LogLevelError ≤ l.loglevel → Error l pkg fnc (some err) now = Outcome.panicked l) ∧
      (LogLevelWarning > l.loglevel → Warning l pkg fnc data now = Outcome.returned l) ∧
      (LogLevelWarning ≤ l.loglevel → Warning l pkg fnc data now = Outcome.panicked l) ∧
      (LogLevelInfo > l.loglevel → Info l pkg fnc data now = Outcome.returned l) ∧
      (LogLevelInfo ≤ l.loglevel → Info l pkg fnc data now = Outcome.panicked l) ∧
      (LogLevelDebug > l.loglevel → Debug l pkg fnc data now = Outcome.returned l) ∧
      (LogLevelDebug ≤ l.loglevel → Debug l pkg fnc data now = Outcome.panicked l)) ∧
    (l.closed = false →
      (Stop l).state.closed = true ∧ (Stop l).state.sendq = [] ∧
      (Stop l).state.sendPanics = l.sendPanics ++ l.sendq ∧
      (Stop l).state.queue = l.queue ∧ (Stop l).state.history = l.history) ∧
    (∀ (Join : String → String → String) (path : String) (level : LogLevel) (t : Time)
        (run : List Event), (∀ e ∈ run, e.isStop = false) →
      (exec (NewLogger Join path level t) run).closed = false) := by
  refine ⟨fun h => ⟨?_, ?_, ?_, ?_, ?_⟩, fun h => ⟨fun lv => ⟨?_, ?_⟩, ?_, ?_, ?_, ?_, ?_, ?_,
    ?_, ?_, ?_, ?_⟩, fun h => ?_, ?_⟩
  · exact newMessage_open l LogLevelFatal pkg fnc err.Error now h
  · exact newMessage_open l LogLevelError pkg fnc err.Error now h
  · exact newMessage_open l LogLevelWarning pkg fnc data now h
  · exact newMessage_open l LogLevelInfo pkg fnc data now h
  · exact newMessage_open l LogLevelDebug pkg fnc data now h
  · exact newMessage_filtered l lv pkg fnc data now
  · exact newMessage_closed_admitted l lv pkg fnc data now h
  · exact newMessage_filtered l LogLevelFatal pkg fnc err.Error now
  · exact newMessage_closed_admitted l LogLevelFatal pkg fnc err.Error now h
  · exact newMessage_filtered l LogLevelError pkg fnc err.Error now
  · exact newMessage_closed_admitted l LogLevelError pkg fnc err.Error now h
  · exact newMessage_filtered l LogLevelWarning pkg fnc data now
  · exact newMessage_closed_admitted l LogLevelWarning pkg fnc data now h
  · exact newMessage_filtered l LogLevelInfo pkg fnc data now
  · exact newMessage_closed_admitted l LogLevelInfo pkg fnc data now h
  · exact newMessage_filtered l LogLevelDebug pkg fnc data now
  · exact newMessage_closed_admitted l LogLevelDebug pkg fnc data now h
  · unfold Stop
    rw [h]
    cases l.stopClosed <;> exact ⟨rfl, rfl, rfl, rfl, rfl⟩
  · intro Join path level t run hrun
    exact exec_induction (fun l => l.closed = false) (fun e => e.isStop = false)
      (fun l e he hl => (closed_step l e he).trans hl) run _ hrun rfl

/-- Witness of C4 amended, on a fresh logger with threshold 4. -/
theorem emit_accepted_while_open_witness :
    (NewLogger joinPath "logs" 4 noon).closed = false ∧
    Accepted (NewLogger joinPath "logs" 4 noon)
      (Info (NewLogger joinPath "logs" 4 noon) "svc" "start" "booting" noon) :=
  ⟨rfl,
    ((emit_accepted_while_open (NewLogger joinPath "logs" 4 noon) "svc" "start" "booting" noon
      ⟨"boom"⟩).1 rfl).2.2.2.1⟩

/-- C3. The code breaks the line format: after `NewLogger(dir, 4)`, the consumer
creating its file, and `Stop()` closing the empty queue, the `select` of
`logWriter` may take the receive on the closed channel; it yields the zero
`message`, and the line written has an empty timestamp and an empty level. -/
theorem zero_message_line_written :
    (exec (NewLogger joinPath "logs" 4 noon)
      [Event.writer (Choice.create none), Event.Stop,
        Event.writer (Choice.recvMsg none)]).file = [" |  | \n"] ∧
    ¬ WellFormedLine " |  | \n" := by
  refine ⟨by rfl, ?_⟩
  rintro ⟨t, lvl, hl, payload, h⟩
  have hlen := congrArg String.length h
  simp only [String.length_append] at hlen
  have h7 : (" |  | \n" : String).length = 7 := by decide
  have h3 : (" | " : String).length = 3 := by decide
  have h1 : ("\n" : String).length = 1 := by decide
  have h4 : 4 ≤ lvl.length := by
    simp only [levelTokens, List.mem_cons, List.mem_singleton, List.not_mem_nil, or_false] at hl
    rcases hl with rfl | rfl | rfl | rfl | rfl | rfl <;> decide
  omega

/-- C9. Once `Stop()` has returned, which it does only when `logWriter` received
its stop notification, the file never changes again, whatever calls and
consumer steps follow; a later emit call is rejected with a panic or returns
without any effect, on the file or on the rest of the state. -/
theorem file_frozen_after_Stop (Join : String → String → String) (path : String)
    (level : LogLevel) (t : Time) (run1 run2 : List Event)
    (h : (exec (NewLogger Join path level t) run1).stopper = Stopper.returned) :
    (exec (exec (NewLogger Join path level t) run1) run2).file =
        (exec (NewLogger Join path level t) run1).file ∧
    (∀ (lv : LogLevel) (pkg fnc data : String) (now : Time),
      newMessage (exec (exec (NewLogger Join path level t) run1) run2) lv pkg fnc data now =
          Outcome.panicked (exec (exec (NewLogger Join path level t) run1) run2) ∨
        newMessage (exec (exec (NewLogger Join path level t) run1) run2) lv pkg fnc data now =
          Outcome.returned (exec (exec (NewLogger Join path level t) run1) run2)) ∧
    (∀ e : Event, e.isEmit = true →
      step (exec (exec (NewLogger Join path level t) run1) run2) e =
        exec (exec (NewLogger Join path level t) run1) run2) := by
  have hS : Stopped (exec (NewLogger Join path level t) run1) :=
    exec_induction Stopped (fun _ => True) (fun l e _ hl => Stopped_step l e hl) run1 _
      (fun _ _ => trivial) (Stopped_NewLogger Join path level t)
  have hw := hS.1 h
  have hc := hS.2 (by rw [h]; simp)
  have hc2 := closed_exec run2 _ hc
  refine ⟨(exited_exec run2 _ hw).2, ?_, ?_⟩
  · intro lv pkg fnc data now
    exact (newMessage_closed _ lv pkg fnc data now hc2).symm
  · intro e he
    rcases emit_cases _ e he with h1 | ⟨lv, msg, _, _, _, _, h1⟩
    · exact h1
    · rw [h1]; simp [send, hc2, Outcome.state]

/-- Witness of C9: `Stop` returns, then an `Info` call is made. -/
theorem file_frozen_after_Stop_witness :
    (exec (NewLogger joinPath "logs" 4 noon)
      [Event.writer (Choice.create none), Event.Stop,
        Event.writer Choice.recvStop]).stopper = Stopper.returned ∧
    (exec (exec (NewLogger joinPath "logs" 4 noon)
        [Event.writer (Choice.create none), Event.Stop, Event.writer Choice.recvStop])
      [Event.Info "svc" "start" "booting" noon]).file =
      (exec (NewLogger joinPath "logs" 4 noon)
        [Event.writer (Choice.create none), Event.Stop, Event.writer Choice.recvStop]).file :=
  ⟨by rfl,
    (file_frozen_after_Stop joinPath "logs" 4 noon
      [Event.writer (Choice.create none), Event.Stop, Event.writer Choice.recvStop]
      [Event.Info "svc" "start" "booting" noon] (by rfl)).1⟩

/-- C2. Order preservation: after every run of emit calls and consumer steps
(no call of `Stop`), line `i` of the file is the rendering of the `i`-th
message that entered the queue: the file is the rendering, in order, of a
prefix of the enqueued messages, and that prefix consists of messages the
consumer has already removed from the queue. -/
theorem file_renders_history_in_order (Join : String → String → String) (path : String)
    (level : LogLevel) (t : Time) (run : List Event)
    (hrun : ∀ e ∈ run, e.isStop = false) :
    (exec (NewLogger Join path level t) run).file.length ≤
        (exec (NewLogger Join path level t) run).history.length ∧
    (exec (NewLogger Join path level t) run).file =
        (((exec (NewLogger Join path level t) run).history).take
          (exec (NewLogger Join path level t) run).file.length).map fileLine ∧
    ∃ pre, (exec (NewLogger Join path level t) run).history =
          pre ++ (exec (NewLogger Join path level t) run).queue ∧
        (exec (NewLogger Join path level t) run).file <+: pre.map fileLine := by
  have hO : Ordered (exec (NewLogger Join path level t) run) :=
    exec_induction Ordered (fun _ => True) (fun l e _ hl => Ordered_step l e hl) run _
      (fun _ _ => trivial) (Ordered_NewLogger Join path level t)
  have hc : (exec (NewLogger Join path level t) run).closed = false :=
    exec_induction (fun l => l.closed = false) (fun e => e.isStop = false)
      (fun l e he hl => (closed_step l e he).trans hl) run _ hrun rfl
  obtain ⟨pre, k, h1, h2, _, _, h5⟩ := hO
  have hk : k = 0 := by
    rcases h5 with h5 | h5
    · exact h5
    · rw [hc] at h5; exact absurd h5.1 (by simp)
  subst hk
  simp only [List.replicate_zero, List.append_nil] at h2
  have hpre : (exec (NewLogger Join path level t) run).file <+:
      ((exec (NewLogger Join path level t) run).history).map fileLine := by
    rw [h1, List.map_append]
    exact h2.trans (List.prefix_append _ _)
  refine ⟨?_, ?_, pre, h1, h2⟩
  · have := hpre.length_le
    simpa using this
  · rw [List.map_take]
    exact List.prefix_iff_eq_take.mp hpre

/-- Witness of C2: two messages enqueued, the first one written. -/
theorem file_renders_history_in_order_witness :
    (∀ e ∈ [Event.writer (Choice.create none), Event.Info "svc" "start" "booting" noon,
        Event.Error "svc" "fail" (some ⟨"boom"⟩) noon, Event.writer (Choice.recvMsg none)],
      e.isStop = false) ∧
    (exec (NewLogger joinPath "logs" 4 noon)
      [Event.writer (Choice.create none), Event.Info "svc" "start" "booting" noon,
        Event.Error "svc" "fail" (some ⟨"boom"⟩) noon,
        Event.writer (Choice.recvMsg none)]).file.length ≤
    (exec (NewLogger joinPath "logs" 4 noon)
      [Event.writer (Choice.create none), Event.Info "svc" "start" "booting" noon,
        Event.Error "svc" "fail" (some ⟨"boom"⟩) noon,
        Event.writer (Choice.recvMsg none)]).history.length :=
  ⟨by decide,
    (file_renders_history_in_order joinPath "logs" 4 noon
      [Event.writer (Choice.create none), Event.Info "svc" "start" "booting" noon,
        Event.Error "svc" "fail" (some ⟨"boom"⟩) noon, Event.writer (Choice.recvMsg none)]
      (by decide)).1⟩

/-- A consumer step other than a receive on `l.messages` leaves that channel alone. -/
theorem logWriter_other (l l2 : Logger) (c : Choice) (hc : ∀ r, c ≠ Choice.recvMsg r)
    (h : logWriter l c = some l2) : l2.queue = l.queue ∧ l2.sendq = l.sendq := by
  cases c with
  | recvMsg r => exact absurd rfl (hc r)
  | create err =>
    cases err <;> cases hw : l.writer <;> simp [logWriter, hw] at h <;> subst h <;>
      exact ⟨rfl, rfl⟩
  | recvStop =>
    cases hw : l.writer <;> simp [logWriter, hw] at h
    obtain ⟨_, h⟩ := h
    subst h
    exact ⟨rfl, rfl⟩
  | console =>
    cases hw : l.writer <;> simp [logWriter, hw] at h
    subst h
    exact ⟨rfl, rfl⟩

/-- A call of `Stop` on an open channel closes it and makes the parked senders panic. -/
theorem Stop_open (l : Logger) (h : l.closed = false) :
    (Stop l).state.closed = true ∧ (Stop l).state.sendq = [] ∧
    (Stop l).state.sendPanics = l.sendPanics ++ l.sendq ∧
    (Stop l).state.queue = l.queue ∧ (Stop l).state.history = l.history := by
  unfold Stop
  rw [h]
  cases l.stopClosed <;> exact ⟨rfl, rfl, rfl, rfl, rfl⟩

/-- A call of `Stop` on an open channel with a parked sender makes it panic. -/
theorem park_Stop (l : Logger) (msg : message) (hopen : l.closed = false) :
    (step (park l msg) Event.Stop).closed = true ∧
    (step (park l msg) Event.Stop).sendq = [] ∧
    (step (park l msg) Event.Stop).sendPanics = l.sendPanics ++ (l.sendq ++ [msg]) ∧
    (step (park l msg) Event.Stop).queue = l.queue ∧
    (step (park l msg) Event.Stop).history = l.history := by
  exact Stop_open (park l msg) hopen

/-- C8, amended. Backpressure. The queue never holds more than 256 messages, in
any run. On a logger whose queue is open and holds 256 messages, an emit of
an admitted message does not complete, does not drop the message and does not
panic at the call: the caller is parked with its message behind the senders
already parked. Every event other than a consumer receive and a call of
`Stop` leaves the queue as it is and the message parked. When the consumer,
waiting at its `select`, removes the head of the queue, the oldest parked
message is appended at the tail of the queue: the message itself if no
sender was parked before it, and then the queue holds 256 messages again.
When `Stop` is called while the emit is parked, the emit panics and its
message is dropped: it leaves the parked senders, is recorded as a panicked
send, and enters neither the queue nor the history of enqueued messages. -/
theorem emit_on_full_queue_parks (Join : String → String → String) (path : String)
    (level : LogLevel) (t : Time) (run : List Event) (l : Logger) (lv : LogLevel)
    (pkg fnc data : String) (now : Time)
    (hopen : l.closed = false) (hfull : l.queue.length = messagesCap)
    (hle : lv ≤ l.loglevel) :
    (exec (NewLogger Join path level t) run).queue.length ≤ messagesCap ∧
    newMessage l lv pkg fnc data now =
      Outcome.blocked (park l
        { datetime := msgtime now, level := levelstr lv, pkg := pkg, fnc := fnc,
          data := data }) ∧
    (∀ (msg : message) (e : Event), e.isStop = false →
      (∀ r, e ≠ Event.writer (Choice.recvMsg r)) →
      (step (park l msg) e).queue = l.queue ∧
        ∃ more, (step (park l msg) e).sendq = l.sendq ++ [msg] ++ more) ∧
    (∀ (msg : message) (r : Option String), l.writer = Writer.selecting → l.sendq = [] →
      ∃ l2, logWriter (park l msg) (Choice.recvMsg r) = some l2 ∧
        l2.queue = l.queue.tail ++ [msg] ∧ l2.sendq = [] ∧
        l2.queue.length = messagesCap) ∧
    (∀ (msg p : message) (ps : List message) (r : Option String),
      l.writer = Writer.selecting → l.sendq = p :: ps →
      ∃ l2, logWriter (park l msg) (Choice.recvMsg r) = some l2 ∧
        l2.queue = l.queue.tail ++ [p] ∧ l2.sendq = ps ++ [msg]) ∧
    (∀ msg : message,
      (step (park l msg) Event.Stop).closed = true ∧
      (step (park l msg) Event.Stop).sendq = [] ∧
      (step (park l msg) Event.Stop).sendPanics = l.sendPanics ++ (l.sendq ++ [msg]) ∧
      (step (park l msg) Event.Stop).queue = l.queue ∧
      (step (park l msg) Event.Stop).history = l.history) := by
  have hcap : (exec (NewLogger Join path level t) run).queue.length ≤ messagesCap :=
    exec_induction (fun l => l.queue.length ≤ messagesCap) (fun _ => True)
      (fun l e _ hl => cap_step l e hl) run _ (fun _ _ => trivial) (by simp [NewLogger])
  obtain ⟨m, rest, hq⟩ : ∃ m rest, l.queue = m :: rest := by
    cases hq : l.queue with
    | nil => rw [hq] at hfull; simp [messagesCap] at hfull
    | cons m rest => exact ⟨m, rest, rfl⟩
  have hrecv : ∀ (msg p : message) (ps : List message) (r : Option String),
      l.writer = Writer.selecting → l.sendq ++ [msg] = p :: ps →
      ∃ l2, logWriter (park l msg) (Choice.recvMsg r) = some l2 ∧
        l2.queue = l.queue.tail ++ [p] ∧ l2.sendq = ps := by
    intro msg p ps r hw hs
    cases r with
    | none =>
      refine ⟨_, by simp [logWriter, park, hw, recv, hq, hs, writeFile]; rfl, ?_, ?_⟩ <;>
        simp [hq]
    | some e =>
      refine ⟨_, by simp [logWriter, park, hw, recv, hq, hs, writeFile]; rfl, ?_, ?_⟩ <;>
        simp [hq, deferred]
  refine ⟨hcap, ?_, ?_, ?_, ?_, ?_⟩
  · rcases newMessage_cases l lv pkg fnc data now with ⟨hgt, _⟩ | ⟨_, h1⟩
    · exact absurd hle (Int.not_le.mpr hgt)
    · rw [h1]; simp [send, hopen, hfull, park]
  · intro msg e he hne
    rcases step_cases (park l msg) e with hs | ⟨msg2, _, hs⟩ | ⟨h, _⟩ | ⟨c, l1, hc, hw, hs⟩
    · rw [hs]; exact ⟨rfl, [], by simp [park]⟩
    · rw [hs]
      refine ⟨?_, [msg2], ?_⟩ <;> simp [send, park, hopen, hfull, Outcome.state]
    · rw [h] at he; simp [Event.isStop] at he
    · rw [hs]
      have hc2 : ∀ r, c ≠ Choice.recvMsg r := fun r hr => hne r (by rw [hc, hr])
      obtain ⟨h1, h2⟩ := logWriter_other (park l msg) l1 c hc2 hw
      exact ⟨h1, [], by rw [h2]; simp [park]⟩
  · intro msg r hw hs
    obtain ⟨l2, h1, h2, h3⟩ := hrecv msg msg [] r hw (by simp [hs])
    refine ⟨l2, h1, h2, h3, ?_⟩
    rw [h2, ← hfull, hq]; simp
  · intro msg p ps r hw hs
    exact hrecv msg p (ps ++ [msg]) r hw (by simp [hs])
  · intro msg
    exact park_Stop l msg hopen

/-- After `n ≤ 256` calls of `Info` under threshold 4 and no consumer step, the
queue is open and holds `n` messages. -/
theorem fill_queue (n : Nat) (hn : n ≤ messagesCap) :
    (exec (NewLogger joinPath "logs" 4 noon)
      (List.replicate n (Event.Info "svc" "op" "x" noon))).closed = false ∧
    (exec (NewLogger joinPath "logs" 4 noon)
      (List.replicate n (Event.Info "svc" "op" "x" noon))).queue.length = n ∧
    (exec (NewLogger joinPath "logs" 4 noon)
      (List.replicate n (Event.Info "svc" "op" "x" noon))).loglevel = 4 := by
  induction n with
  | zero => exact ⟨rfl, rfl, rfl⟩
  | succ n ih =>
    obtain ⟨h1, h2, h3⟩ := ih (Nat.le_of_succ_le hn)
    have hstep : step (exec (NewLogger joinPath "logs" 4 noon)
          (List.replicate n (Event.Info "svc" "op" "x" noon)))
          (Event.Info "svc" "op" "x" noon) =
        enqueue (exec (NewLogger joinPath "logs" 4 noon)
          (List.replicate n (Event.Info "svc" "op" "x" noon)))
          { datetime := msgtime noon, level := levelstr LogLevelInfo, pkg := "svc",
            fnc := "op", data := "x" } := by
      show (newMessage _ LogLevelInfo "svc" "op" "x" noon).state = _
      rw [newMessage_admitted _ LogLevelInfo "svc" "op" "x" noon h1 (by omega)
        (by rw [h3]; decide)]
      rfl
    rw [List.replicate_succ', exec_append, exec_singleton, hstep]
    exact ⟨h1, by simp [enqueue, h2], h3⟩

/-- After `n ≤ 256` calls of `Info` under threshold 4 and no consumer step, the
queue and the history hold `n` copies of the `INFO` message and no sender is
parked or has panicked. -/
theorem fill_contents (n : Nat) (hn : n ≤ messagesCap) :
    (exec (NewLogger joinPath "logs" 4 noon)
      (List.replicate n (Event.Info "svc" "op" "x" noon))).queue =
        List.replicate n
          { datetime := msgtime noon, level := "INFO", pkg := "svc", fnc := "op",
            data := "x" } ∧
    (exec (NewLogger joinPath "logs" 4 noon)
      (List.replicate n (Event.Info "svc" "op" "x" noon))).history =
        List.replicate n
          { datetime := msgtime noon, level := "INFO", pkg := "svc", fnc := "op",
            data := "x" } ∧
    (exec (NewLogger joinPath "logs" 4 noon)
      (List.replicate n (Event.Info "svc" "op" "x" noon))).sendq = [] ∧
    (exec (NewLogger joinPath "logs" 4 noon)
      (List.replicate n (Event.Info "svc" "op" "x" noon))).sendPanics = [] := by
  induction n with
  | zero => exact ⟨rfl, rfl, rfl, rfl⟩
  | succ n ih =>
    obtain ⟨h1, h2, h3, h4⟩ := ih (Nat.le_of_succ_le hn)
    obtain ⟨g1, g2, g3⟩ := fill_queue n (Nat.le_of_succ_le hn)
    have hstep : step (exec (NewLogger joinPath "logs" 4 noon)
          (List.replicate n (Event.Info "svc" "op" "x" noon)))
          (Event.Info "svc" "op" "x" noon) =
        enqueue (exec (NewLogger joinPath "logs" 4 noon)
          (List.replicate n (Event.Info "svc" "op" "x" noon)))
          { datetime := msgtime noon, level := levelstr LogLevelInfo, pkg := "svc",
            fnc := "op", data := "x" } := by
      show (newMessage _ LogLevelInfo "svc" "op" "x" noon).state = _
      rw [newMessage_admitted _ LogLevelInfo "svc" "op" "x" noon g1 (by omega)
        (by rw [g3]; decide)]
      rfl
    have hl : levelstr LogLevelInfo = "INFO" := by decide
    rw [List.replicate_succ', exec_append, exec_singleton, hstep, hl]
    refine ⟨?_, ?_, h3, h4⟩
    · show _ ++ [_] = _
      rw [h1, ← List.replicate_succ']
    · show _ ++ [_] = _
      rw [h2, ← List.replicate_succ']

/-- C8, as stated, fails: on the logger reached by `NewLogger(dir, 4)` and 256
calls of `Info` (`filled`), the call `Warning("svc","op","y")` is parked with
its message `lateMsg`; when `Stop()` is then called, the parked call panics
and its message is dropped: no sender is parked any more, the message is the
one panicked send, and it is neither in the queue nor among the messages that
were ever enqueued, so no consumer receive can append it. -/
theorem parked_emit_panics_on_Stop :
    filled.closed = false ∧ filled.queue.length = messagesCap ∧
    Warning filled "svc" "op" "y" noon = Outcome.blocked (park filled lateMsg) ∧
    (step (park filled lateMsg) Event.Stop).sendq = [] ∧
    (step (park filled lateMsg) Event.Stop).sendPanics = [lateMsg] ∧
    lateMsg ∉ (step (park filled lateMsg) Event.Stop).queue ∧
    lateMsg ∉ (step (park filled lateMsg) Event.Stop).history := by
  obtain ⟨g1, g2, g3⟩ := fill_queue 256 (Nat.le_refl _)
  obtain ⟨h1, h2, h3, h4⟩ := fill_contents 256 (Nat.le_refl _)
  have hcap : messagesCap ≤ filled.queue.length := Nat.le_of_eq g2.symm
  obtain ⟨_, p2, p3, p4, p5⟩ := park_Stop filled lateMsg g1
  have hne : lateMsg ≠ fillMsg := by
    intro h
    have := congrArg message.data h
    revert this
    decide
  refine ⟨g1, g2, ?_, p2, ?_, ?_, ?_⟩
  · show newMessage filled LogLevelWarning "svc" "op" "y" noon = _
    rcases newMessage_cases filled LogLevelWarning "svc" "op" "y" noon with ⟨hgt, _⟩ | ⟨_, hs⟩
    · rw [show filled.loglevel = 4 from g3] at hgt
      exact absurd hgt (by decide)
    · rw [hs]
      rcases send_cases filled _ with ⟨hc, _⟩ | ⟨_, hlt, _⟩ | ⟨_, _, hb⟩
      · rw [show filled.closed = false from g1] at hc; exact absurd hc (by simp)
      · exact absurd hlt (Nat.not_lt.mpr hcap)
      · rw [hb]; rfl
  · rw [p3, show filled.sendPanics = [] from h4, show filled.sendq = [] from h3]
    rfl
  · rw [p4, show filled.queue = List.replicate 256 fillMsg from h1]
    intro hmem
    exact hne (List.eq_of_mem_replicate hmem)
  · rw [p5, show filled.history = List.replicate 256 fillMsg from h2]
    intro hmem
    exact hne (List.eq_of_mem_replicate hmem)

/-- Witness of C8: the logger after 256 `Info` calls and no consumer step. -/
theorem emit_on_full_queue_parks_witness :
    (exec (NewLogger joinPath "logs" 4 noon)
      (List.replicate 256 (Event.Info "svc" "op" "x" noon))).closed = false ∧
    (exec (NewLogger joinPath "logs" 4 noon)
      (List.replicate 256 (Event.Info "svc" "op" "x" noon))).queue.length = messagesCap ∧
    (3 : LogLevel) ≤ (exec (NewLogger joinPath "logs" 4 noon)
      (List.replicate 256 (Event.Info "svc" "op" "x" noon))).loglevel ∧
    newMessage (exec (NewLogger joinPath "logs" 4 noon)
        (List.replicate 256 (Event.Info "svc" "op" "x" noon))) 3 "svc" "op" "y" noon =
      Outcome.blocked (park (exec (NewLogger joinPath "logs" 4 noon)
          (List.replicate 256 (Event.Info "svc" "op" "x" noon)))
        { datetime := msgtime noon, level := levelstr 3, pkg := "svc", fnc := "op",
          data := "y" }) :=
  ⟨(fill_queue 256 (Nat.le_refl _)).1, (fill_queue 256 (Nat.le_refl _)).2.1,
    by rw [(fill_queue 256 (Nat.le_refl _)).2.2]; decide,
    (emit_on_full_queue_parks joinPath "logs" 4 noon [] _ 3 "svc" "op" "y" noon
      (fill_queue 256 (Nat.le_refl _)).1 (fill_queue 256 (Nat.le_refl _)).2.1
      (by rw [(fill_queue 256 (Nat.le_refl _)).2.2]; decide)).2.1⟩

/-! ### The console mirror -/

theorem console_append_line (l : Logger) (s : String) :
    console { l with stdlog := l.stdlog ++ [LogRecord.line s] } = console l ++ [s] := by
  simp [console, List.filterMap_append]

theorem console_append_failure (l : Logger) (e : String) :
    console { l with stdlog := l.stdlog ++ [LogRecord.failure e] } = console l := by
  simp [console, List.filterMap_append]

theorem recv_frame (l l1 : Logger) (msg : message) (hr : recv l = some (msg, l1)) :
    l1.file = l.file ∧ l1.stdlog = l.stdlog ∧ l1.writer = l.writer ∧
      l1.stopper = l.stopper := by
  rcases recv_cases l l1 msg hr with ⟨rest, _, _, rfl⟩ | ⟨rest, s, ss, _, _, rfl⟩ |
    ⟨_, _, _, rfl⟩ <;> exact ⟨rfl, rfl, rfl, rfl⟩

theorem Mirrored_NewLogger (Join : String → String → String) (path : String)
    (level : LogLevel) (now : Time) : Mirrored (NewLogger Join path level now) := by
  simp [Mirrored, NewLogger, console]

theorem Mirrored_of_eq (l l2 : Logger) (h : Mirrored l) (hw : l2.writer = l.writer)
    (hf : l2.file = l.file) (hs : l2.stdlog = l.stdlog) : Mirrored l2 := by
  unfold Mirrored console at *
  rw [hw, hf, hs]
  exact h

theorem Mirrored_step (l : Logger) (e : Event) (h : Mirrored l) : Mirrored (step l e) := by
  rcases step_cases l e with hs | ⟨msg, _, hs⟩ | ⟨_, hs⟩ | ⟨c, l1, _, hw, hs⟩
  · rw [hs]; exact h
  · rw [hs]
    rcases send_cases l msg with ⟨_, h1⟩ | ⟨_, _, h1⟩ | ⟨_, _, h1⟩ <;> rw [h1] <;>
      exact Mirrored_of_eq l _ h rfl rfl rfl
  · rw [hs]; unfold Stop
    split
    · exact h
    · split <;> exact Mirrored_of_eq l _ h rfl rfl rfl
  · rw [hs]
    rcases logWriter_cases l l1 c hw with ⟨hs1, rfl⟩ | ⟨hs1, e, rfl⟩ | ⟨hs1, msg, l0, hr, rfl⟩ |
      ⟨hs1, msg, l0, e, hr, rfl⟩ | ⟨s, hs1, rfl⟩ | ⟨hs1, _, rfl⟩
    · obtain ⟨h1, h2⟩ := h
      have hf := h1 hs1
      rw [hs1] at h2
      simp only at h2
      rw [hf] at h2
      refine ⟨fun _ => rfl, ?_⟩
      simpa [console] using h2
    · obtain ⟨h1, h2⟩ := h
      rw [hs1] at h2
      simp only at h2
      refine ⟨fun hx => by simp at hx, ?_⟩
      simpa [console, List.filterMap_append] using h2
    · obtain ⟨e1, e2, _, _⟩ := recv_frame l l0 msg hr
      obtain ⟨_, h2⟩ := h
      rw [hs1] at h2
      simp only at h2
      refine ⟨fun hx => by simp at hx, ?_⟩
      simp only [console, e1, e2, fileLine]
      rw [h2]
      rfl
    · obtain ⟨e1, e2, _, _⟩ := recv_frame l l0 msg hr
      obtain ⟨_, h2⟩ := h
      rw [hs1] at h2
      simp only at h2
      refine ⟨fun hx => by simp [deferred] at hx, ?_⟩
      simpa [console, deferred, e1, e2, List.filterMap_append] using h2
    · obtain ⟨_, h2⟩ := h
      rw [hs1] at h2
      simp only at h2
      refine ⟨fun hx => by simp [writeConsole] at hx, ?_⟩
      simpa [console, writeConsole, List.filterMap_append] using h2
    · obtain ⟨_, h2⟩ := h
      rw [hs1] at h2
      simp only at h2
      refine ⟨fun hx => by simp [deferred] at hx, ?_⟩
      simpa [console, deferred] using h2

/-- Once `logWriter` has returned, no event adds a console line. -/
theorem exited_console (run : List Event) (l : Logger) (h : l.writer = Writer.exited) :
    console (exec l run) = console l := by
  induction run generalizing l with
  | nil => rfl
  | cons e run ih =>
    rw [exec_cons, ih (step l e) (exited_step l e h).1]
    rcases step_cases l e with hs | ⟨msg, _, hs⟩ | ⟨_, hs⟩ | ⟨c, l1, _, hw, hs⟩
    · rw [hs]
    · rw [hs]
      rcases send_cases l msg with ⟨_, h1⟩ | ⟨_, _, h1⟩ | ⟨_, _, h1⟩ <;> rw [h1] <;> rfl
    · rw [hs]; unfold Stop
      split
      · rfl
      · split <;> rfl
    · rcases logWriter_cases l l1 c hw with ⟨h1, _⟩ | ⟨h1, _⟩ | ⟨h1, _⟩ | ⟨h1, _⟩ |
        ⟨s, h1, _⟩ | ⟨h1, _⟩ <;> rw [h] at h1 <;> exact absurd h1 (by simp)

/-- C10. Console mirror. After every run the file holds the lines handed to
`writeConsole`, each with its newline and in the same order, followed, when the
consumer stands between `writeFile` and `writeConsole`, by the one line whose
mirror is pending. For a message the consumer dequeues: if the append succeeds
the file gains the rendered line, the only step the consumer can take next is
the mirror, and it hands the same text to the console; if the append fails,
the file and the console are left as they were, no step of the consumer is
enabled any more, and neither the file nor the console changes in any later run. -/
theorem console_mirrors_file (Join : String → String → String) (path : String)
    (level : LogLevel) (t : Time) (run run2 : List Event) (l l1 : Logger) (msg : message)
    (e : String) (hsel : l.writer = Writer.selecting) (hr : recv l = some (msg, l1)) :
    (match (exec (NewLogger Join path level t) run).writer with
      | Writer.mirroring s =>
        (exec (NewLogger Join path level t) run).file =
          (console (exec (NewLogger Join path level t) run)).map (fun x => x ++ "\n")
            ++ [s ++ "\n"]
      | _ =>
        (exec (NewLogger Join path level t) run).file =
          (console (exec (NewLogger Join path level t) run)).map (fun x => x ++ "\n")) ∧
    (∃ l2 l3, logWriter l (Choice.recvMsg none) = some l2 ∧
      l2.file = l.file ++ [msgstring msg ++ "\n"] ∧ console l2 = console l ∧
      (∀ c, c ≠ Choice.console → logWriter l2 c = none) ∧
      logWriter l2 Choice.console = some l3 ∧
      console l3 = console l ++ [msgstring msg] ∧ l3.file = l2.file) ∧
    (∃ l2, logWriter l (Choice.recvMsg (some e)) = some l2 ∧
      l2.file = l.file ∧ console l2 = console l ∧ (∀ c, logWriter l2 c = none) ∧
      (exec l2 run2).file = l.file ∧ console (exec l2 run2) = console l) := by
  have hM : Mirrored (exec (NewLogger Join path level t) run) :=
    exec_induction Mirrored (fun _ => True) (fun l e _ hl => Mirrored_step l e hl) run _
      (fun _ _ => trivial) (Mirrored_NewLogger Join path level t)
  obtain ⟨e1, e2, _, _⟩ := recv_frame l l1 msg hr
  refine ⟨hM.2, ?_, ?_⟩
  · have hl2 : logWriter l (Choice.recvMsg none) = some (written l1 msg) := by
      simp [logWriter, hsel, hr, writeFile, written]
    have hl3 : logWriter (written l1 msg) Choice.console =
        some (writeConsole { written l1 msg with writer := Writer.selecting } (msgstring msg)) := by
      simp [logWriter, written]
    refine ⟨_, _, hl2, ?_, ?_, ?_, hl3, ?_, ?_⟩
    · simp [written, e1]
    · simp [console, written, e2]
    · intro c hc
      cases c <;> simp [logWriter, written] at hc ⊢
    · simp [console, writeConsole, written, e2, List.filterMap_append]
    · simp [writeConsole, written]
  · have hl2 : logWriter l (Choice.recvMsg (some e)) = some (failed l1 e) := by
      simp [logWriter, hsel, hr, writeFile, failed]
    have hex : (failed l1 e).writer = Writer.exited := rfl
    refine ⟨_, hl2, ?_, ?_, ?_, ?_, ?_⟩
    · simp [failed, deferred, e1]
    · simp [console, failed, deferred, e2, List.filterMap_append]
    · intro c
      cases c <;> simp [logWriter, failed, deferred]
    · rw [(exited_exec run2 _ hex).2]; simp [failed, deferred, e1]
    · rw [exited_console run2 _ hex]
      simp [console, failed, deferred, e2, List.filterMap_append]

/-- Witness of C10: the consumer at its `select` with one `INFO` message queued. -/
theorem console_mirrors_file_witness :
    (exec (NewLogger joinPath "logs" 4 noon)
      [Event.writer (Choice.create none),
        Event.Info "svc" "start" "booting" noon]).writer = Writer.selecting ∧
    recv (exec (NewLogger joinPath "logs" 4 noon)
      [Event.writer (Choice.create none), Event.Info "svc" "start" "booting" noon]) =
      some ({ datetime := msgtime noon, level := "INFO", pkg := "svc", fnc := "start",
              data := "booting" },
        dequeued (exec (NewLogger joinPath "logs" 4 noon)
          [Event.writer (Choice.create none), Event.Info "svc" "start" "booting" noon])) ∧
    ∃ l2, logWriter (exec (NewLogger joinPath "logs" 4 noon)
        [Event.writer (Choice.create none), Event.Info "svc" "start" "booting" noon])
        (Choice.recvMsg (some "disk full")) = some l2 ∧
      l2.file = [] ∧ console l2 = [] ∧ (∀ c, logWriter l2 c = none) ∧
      (exec l2 [Event.Info "svc" "op" "x" noon]).file = [] ∧
      console (exec l2 [Event.Info "svc" "op" "x" noon]) = [] :=
  ⟨by rfl, by rfl,
    (console_mirrors_file joinPath "logs" 4 noon [] [Event.Info "svc" "op" "x" noon]
      (exec (NewLogger joinPath "logs" 4 noon)
        [Event.writer (Choice.create none), Event.Info "svc" "start" "booting" noon])
      (dequeued (exec (NewLogger joinPath "logs" 4 noon)
        [Event.writer (Choice.create none), Event.Info "svc" "start" "booting" noon]))
      { datetime := msgtime noon, level := "INFO", pkg := "svc", fnc := "start",
        data := "booting" } "disk full" (by rfl) (by rfl)).2.2⟩

/-! ### A threshold below `FATAL` -/

theorem Silent_step (l : Logger) (e : Event) (he : e.isEmit = true ∨ e.isWriter = true)
    (h : Silent l) : Silent (step l e) := by
  obtain ⟨h1, h2, h3, h4, h5, h6, h7, h8, h9⟩ := h
  rcases he with he | he
  · rcases emit_cases l e he with hs | ⟨lv, msg, hlo, _, hle, _, _⟩
    · rw [hs]; exact ⟨h1, h2, h3, h4, h5, h6, h7, h8, h9⟩
    · exact absurd (Int.le_trans hlo (Int.le_trans hle h1)) (by decide)
  · cases e <;> simp [Event.isWriter] at he
    rename_i c
    cases hw : logWriter l c with
    | none => simp only [step, hw, Option.getD_none]; exact ⟨h1, h2, h3, h4, h5, h6, h7, h8, h9⟩
    | some l1 =>
      simp only [step, hw, Option.getD_some]
      have hrecv : recv l = none := by simp [recv, h4, h2]
      rcases logWriter_cases l l1 c hw with ⟨_, rfl⟩ | ⟨_, e, rfl⟩ | ⟨_, msg, l0, hr, _⟩ |
        ⟨_, msg, l0, e, hr, _⟩ | ⟨s, hs1, _⟩ | ⟨_, hsend, _⟩
      · exact ⟨h1, h2, h3, h4, h5, h6, rfl, h8, by simp⟩
      · refine ⟨h1, h2, h3, h4, h5, h6, h7, ?_, by simp⟩
        simpa [console, List.filterMap_append] using h8
      · rw [hrecv] at hr; exact absurd hr (by simp)
      · rw [hrecv] at hr; exact absurd hr (by simp)
      · exact absurd hs1 (h9 s)
      · rw [h3] at hsend; exact absurd hsend (by simp)

/-- C6. With a threshold below 1, after every finite run of calls of `Fatal`,
`Error`, `Warning`, `Info`, `Debug` (any arguments) and of consumer steps, no
message has entered the queue, the queue is empty, and the consumer has
written no line: the file is empty, and so is the console mirror. -/
theorem threshold_below_fatal_writes_nothing (Join : String → String → String) (path : String)
    (level : LogLevel) (t : Time) (run : List Event) (hT : level ≤ 0)
    (hrun : ∀ e ∈ run, e.isEmit = true ∨ e.isWriter = true) :
    (exec (NewLogger Join path level t) run).history = [] ∧
    (exec (NewLogger Join path level t) run).queue = [] ∧
    (exec (NewLogger Join path level t) run).file = [] ∧
    console (exec (NewLogger Join path level t) run) = [] := by
  have hS : Silent (exec (NewLogger Join path level t) run) :=
    exec_induction Silent (fun e => e.isEmit = true ∨ e.isWriter = true)
      (fun l e he hl => Silent_step l e he hl) run _ hrun
      ⟨hT, rfl, rfl, rfl, rfl, rfl, rfl, rfl, by simp [NewLogger]⟩
  obtain ⟨_, _, _, h4, _, h6, h7, h8, _⟩ := hS
  exact ⟨h6, h4, h7, h8⟩

/-- Witness of C6: threshold 0, a `Fatal` and a `Debug` call around consumer steps. -/
theorem threshold_below_fatal_writes_nothing_witness :
    (0 : LogLevel) ≤ 0 ∧
    (∀ e ∈ [Event.writer (Choice.create none), Event.Fatal "svc" "fail" (some ⟨"boom"⟩) noon,
        Event.writer (Choice.recvMsg none), Event.Debug "svc" "tick" "x" noon],
      e.isEmit = true ∨ e.isWriter = true) ∧
    (exec (NewLogger joinPath "logs" 0 noon)
      [Event.writer (Choice.create none), Event.Fatal "svc" "fail" (some ⟨"boom"⟩) noon,
        Event.writer (Choice.recvMsg none), Event.Debug "svc" "tick" "x" noon]).file = [] :=
  ⟨by decide, by decide,
    (threshold_below_fatal_writes_nothing joinPath "logs" 0 noon
      [Event.writer (Choice.create none), Event.Fatal "svc" "fail" (some ⟨"boom"⟩) noon,
        Event.writer (Choice.recvMsg none), Event.Debug "svc" "tick" "x" noon]
      (by decide) (by decide)).2.2.1⟩

/-! ### The end-to-end scenario -/

theorem take_length_prefix_of_prefix_append {α : Type} (a b c : List α) (h : a <+: b ++ c) :
    a.take b.length <+: b := by
  by_cases hlen : a.length ≤ b.length
  · rw [List.take_of_length_le hlen]
    exact List.prefix_of_prefix_length_le h (List.prefix_append b c) hlen
  · obtain ⟨u, hu⟩ := List.prefix_of_prefix_length_le (List.prefix_append b c) h
      (Nat.le_of_lt (Nat.lt_of_not_le hlen))
    rw [← hu, List.take_left]

theorem logWriter_frame (l l2 : Logger) (c : Choice) (h : logWriter l c = some l2) :
    l2.loglevel = l.loglevel ∧ l2.closed = l.closed ∧
      (l.sendq = [] → l2.sendq = [] ∧ l2.history = l.history) ∧
      l2.queue.length ≤ l.queue.length := by
  have hrecv : ∀ msg l1, recv l = some (msg, l1) →
      l1.loglevel = l.loglevel ∧ l1.closed = l.closed ∧
        (l.sendq = [] → l1.sendq = [] ∧ l1.history = l.history) ∧
        l1.queue.length ≤ l.queue.length := by
    intro msg l1 hr
    rcases recv_cases l l1 msg hr with ⟨rest, hq, _, rfl⟩ | ⟨rest, s, ss, hq, hs, rfl⟩ |
      ⟨_, _, _, rfl⟩
    · exact ⟨rfl, rfl, fun h => ⟨h, rfl⟩, by simp [hq]⟩
    · exact ⟨rfl, rfl, fun h => by rw [hs] at h; exact absurd h (by simp), by simp [hq]⟩
    · exact ⟨rfl, rfl, fun h => ⟨h, rfl⟩, Nat.le_refl _⟩
  rcases logWriter_cases l l2 c h with ⟨_, rfl⟩ | ⟨_, e, rfl⟩ | ⟨_, msg, l0, hr, rfl⟩ |
    ⟨_, msg, l0, e, hr, rfl⟩ | ⟨s, _, rfl⟩ | ⟨_, _, rfl⟩
  · exact ⟨rfl, rfl, fun h => ⟨h, rfl⟩, Nat.le_refl _⟩
  · exact ⟨rfl, rfl, fun h => ⟨h, rfl⟩, Nat.le_refl _⟩
  · exact hrecv msg l0 hr
  · exact hrecv msg l0 hr
  · exact ⟨rfl, rfl, fun h => ⟨h, rfl⟩, Nat.le_refl _⟩
  · exact ⟨rfl, rfl, fun h => ⟨h, rfl⟩, Nat.le_refl _⟩

/-- Consumer steps keep a stage of the scenario. -/
theorem Stage_writer (cs : List Choice) (l : Logger) (c : Bool) (h : List message)
    (hl : Stage l c h) : Stage (exec l (cs.map Event.writer)) c h := by
  induction cs generalizing l with
  | nil => exact hl
  | cons x cs ih =>
    rw [List.map_cons, exec_cons]
    apply ih
    cases hw : logWriter l x with
    | none => simpa [step, hw] using hl
    | some l2 =>
      obtain ⟨h1, h2, h3, h4⟩ := logWriter_frame l l2 x hw
      obtain ⟨g1, g2, g3, g4, g5⟩ := hl
      simp only [step, hw, Option.getD_some]
      exact ⟨h1.trans g1, h2.trans g2, (h3 g3).1, (h3 g3).2.trans g4, Nat.le_trans h4 g5⟩

/-- An admitted emit extends a stage of the scenario by its message. -/
theorem Stage_admitted (l : Logger) (h : List message) (hl : Stage l false h)
    (hlen : h.length < messagesCap) (lv : LogLevel) (hlv : lv ≤ 4) (pkg fnc data : String)
    (now : Time) :
    Stage (newMessage l lv pkg fnc data now).state false
      (h ++ [{ datetime := msgtime now, level := levelstr lv, pkg := pkg, fnc := fnc,
               data := data }]) := by
  obtain ⟨g1, g2, g3, g4, g5⟩ := hl
  rw [newMessage_admitted l lv pkg fnc data now g2 (Nat.lt_of_le_of_lt g5 hlen)
    (by rw [g1]; exact hlv)]
  exact ⟨g1, g2, g3, by simp [Outcome.state, enqueue, g4], by
    simp only [Outcome.state, enqueue, List.length_append, List.length_singleton]; omega⟩

theorem Stage_Stop (l : Logger) (h : List message) (hl : Stage l false h) :
    Stage (step l Event.Stop) true h := by
  obtain ⟨g1, g2, g3, g4, g5⟩ := hl
  show Stage (Stop l).state true h
  unfold Stop
  rw [g2]
  cases l.stopClosed <;> exact ⟨g1, rfl, rfl, g4, g5⟩

theorem Stage_Info (l : Logger) (h : List message) (hl : Stage l false h)
    (hlen : h.length < messagesCap) (pkg fnc data : String) (now : Time) :
    Stage (step l (Event.Info pkg fnc data now)) false
      (h ++ [{ datetime := msgtime now, level := "INFO", pkg := pkg, fnc := fnc,
               data := data }]) :=
  Stage_admitted l h hl hlen LogLevelInfo (by decide) pkg fnc data now

theorem Stage_Error (l : Logger) (h : List message) (hl : Stage l false h)
    (hlen : h.length < messagesCap) (pkg fnc : String) (err : error) (now : Time) :
    Stage (step l (Event.Error pkg fnc (some err) now)) false
      (h ++ [{ datetime := msgtime now, level := "ERROR", pkg := pkg, fnc := fnc,
               data := err.Error }]) :=
  Stage_admitted l h hl hlen LogLevelError (by decide) pkg fnc err.Error now

theorem Stage_Debug (l : Logger) (c : Bool) (h : List message) (hl : Stage l c h)
    (pkg fnc data : String) (now : Time) :
    Stage (step l (Event.Debug pkg fnc data now)) c h := by
  have h1 : step l (Event.Debug pkg fnc data now) = l :=
    congrArg Outcome.state
      (newMessage_filtered l LogLevelDebug pkg fnc data now (by rw [hl.1]; decide))
  rw [h1]
  exact hl

/-- The messages enqueued in the scenario are the `INFO` one and the `ERROR`
one, in call order, whatever the consumer does. -/
theorem Stage_scenario (Join : String → String → String) (path : String) (t0 : Time)
    (s0 s1 s2 s3 s4 : List Choice) (t1 t2 t3 : Time) (someErr : error) :
    Stage (exec (NewLogger Join path 4 t0) (scenario s0 s1 s2 s3 s4 t1 t2 t3 someErr)) true
      [{ datetime := msgtime t1, level := "INFO", pkg := "svc", fnc := "start",
         data := "booting" },
       { datetime := msgtime t3, level := "ERROR", pkg := "svc", fnc := "fail",
         data := someErr.Error }] := by
  have a0 : Stage (NewLogger Join path 4 t0) false [] := ⟨rfl, rfl, rfl, rfl, Nat.le_refl _⟩
  unfold scenario
  rw [exec_append, exec_cons, exec_append, exec_cons, exec_append, exec_cons, exec_append,
    exec_cons]
  apply Stage_writer
  apply Stage_Stop
  apply Stage_writer
  apply Stage_Error _ [_] _ (by simp [messagesCap])
  apply Stage_writer
  apply Stage_Debug
  apply Stage_writer
  apply Stage_Info _ [] _ (by simp [messagesCap])
  apply Stage_writer
  exact a0

/-- C7, as stated, fails: in the scenario with threshold 4, when the consumer
creates its file and then first runs again after `Stop()` was called, taking
the stop notification, `Stop` returns and the file holds no line at all. -/
theorem scenario_file_may_be_empty :
    (exec (NewLogger joinPath "logs" 4 noon)
      (scenario [Choice.create none] [] [] [] [Choice.recvStop] noon noon noon
        ⟨"boom"⟩)).stopper = Stopper.returned ∧
    (exec (NewLogger joinPath "logs" 4 noon)
      (scenario [Choice.create none] [] [] [] [Choice.recvStop] noon noon noon
        ⟨"boom"⟩)).file = [] ∧
    (exec (NewLogger joinPath "logs" 4 noon)
      (scenario [Choice.create none] [] [] [] [Choice.recvStop] noon noon noon
        ⟨"boom"⟩)).queue.length = 2 :=
  ⟨by rfl, by rfl, by rfl⟩

/-- The scenario when the consumer writes each message before the next call. -/
theorem scenario_drained (Join : String → String → String) (path : String) (t0 t1 t2 t3 : Time)
    (someErr : error) :
    (exec (NewLogger Join path 4 t0)
        (scenario [Choice.create none] [Choice.recvMsg none, Choice.console] []
          [Choice.recvMsg none, Choice.console] [Choice.recvStop] t1 t2 t3 someErr)).file =
      [fileLine { datetime := msgtime t1, level := "INFO", pkg := "svc", fnc := "start",
                  data := "booting" },
       fileLine { datetime := msgtime t3, level := "ERROR", pkg := "svc", fnc := "fail",
                  data := someErr.Error }] ∧
    (exec (NewLogger Join path 4 t0)
        (scenario [Choice.create none] [Choice.recvMsg none, Choice.console] []
          [Choice.recvMsg none, Choice.console] [Choice.recvStop] t1 t2 t3
          someErr)).stopper = Stopper.returned := by
  simp [scenario, exec, step, NewLogger, Info, Debug, Error, Stop, newMessage, send, logWriter,
    recv, writeFile, writeConsole, deferred, Outcome.state, messagesCap, fileLine,
    LogLevelInfo, LogLevelDebug, LogLevelError, LogLevelFatal, LogLevelWarning, levelstr]

/-- C7, amended. In the scenario (threshold 4; `Info`, `Debug`, `Error`, `Stop`
in that order), whatever the consumer is scheduled to do: the messages that
entered the queue are the `INFO` message with payload "booting" and then the
`ERROR` message with payload `someErr.Error()`, so the `Debug` call enqueued
nothing; the first two lines of the file, as far as present, are the `INFO`
line followed by the `ERROR` line, in call order; and when the consumer
writes each message before the next call, the file holds exactly these two
lines after `Stop` has returned. `Stop` does not drain the queue, so fewer
than two lines may be present. -/
theorem scenario_file_in_call_order (Join : String → String → String) (path : String)
    (t0 : Time) (s0 s1 s2 s3 s4 : List Choice) (t1 t2 t3 : Time) (someErr : error) :
    (exec (NewLogger Join path 4 t0) (scenario s0 s1 s2 s3 s4 t1 t2 t3 someErr)).history =
      [{ datetime := msgtime t1, level := "INFO", pkg := "svc", fnc := "start",
         data := "booting" },
       { datetime := msgtime t3, level := "ERROR", pkg := "svc", fnc := "fail",
         data := someErr.Error }] ∧
    (exec (NewLogger Join path 4 t0) (scenario s0 s1 s2 s3 s4 t1 t2 t3 someErr)).file.take 2 <+:
      [fileLine { datetime := msgtime t1, level := "INFO", pkg := "svc", fnc := "start",
                  data := "booting" },
       fileLine { datetime := msgtime t3, level := "ERROR", pkg := "svc", fnc := "fail",
                  data := someErr.Error }] ∧
    (exec (NewLogger Join path 4 t0)
        (scenario [Choice.create none] [Choice.recvMsg none, Choice.console] []
          [Choice.recvMsg none, Choice.console] [Choice.recvStop] t1 t2 t3 someErr)).file =
      [fileLine { datetime := msgtime t1, level := "INFO", pkg := "svc", fnc := "start",
                  data := "booting" },
       fileLine { datetime := msgtime t3, level := "ERROR", pkg := "svc", fnc := "fail",
                  data := someErr.Error }] ∧
    (exec (NewLogger Join path 4 t0)
        (scenario [Choice.create none] [Choice.recvMsg none, Choice.console] []
          [Choice.recvMsg none, Choice.console] [Choice.recvStop] t1 t2 t3
          someErr)).stopper = Stopper.returned := by
  have hS := Stage_scenario Join path t0 s0 s1 s2 s3 s4 t1 t2 t3 someErr
  have hO : Ordered
      (exec (NewLogger Join path 4 t0) (scenario s0 s1 s2 s3 s4 t1 t2 t3 someErr)) :=
    exec_induction Ordered (fun _ => True) (fun l e _ hl => Ordered_step l e hl) _ _
      (fun _ _ => trivial) (Ordered_NewLogger Join path 4 t0)
  refine ⟨hS.2.2.2.1, ?_, (scenario_drained Join path t0 t1 t2 t3 someErr).1,
    (scenario_drained Join path t0 t1 t2 t3 someErr).2⟩
  obtain ⟨pre, k, h1, h2, _, _, h5⟩ := hO
  rw [hS.2.2.2.1] at h1
  have hfile : ∃ c, (exec (NewLogger Join path 4 t0)
      (scenario s0 s1 s2 s3 s4 t1 t2 t3 someErr)).file <+:
        List.map fileLine
          [{ datetime := msgtime t1, level := "INFO", pkg := "svc", fnc := "start",
             data := "booting" },
           { datetime := msgtime t3, level := "ERROR", pkg := "svc", fnc := "fail",
             data := someErr.Error }] ++ c := by
    rcases h5 with h5 | ⟨_, h5⟩
    · subst h5
      refine ⟨[], ?_⟩
      rw [h1, List.map_append, List.append_nil]
      simp only [List.replicate_zero, List.append_nil] at h2
      exact h2.trans (List.prefix_append _ _)
    · rw [h5, List.append_nil] at h1
      exact ⟨List.replicate k zeroLine, by rw [h1]; exact h2⟩
  obtain ⟨c, hc⟩ := hfile
  exact take_length_prefix_of_prefix_append _ _ c hc

end Gologger
